import Mathlib

/-!
# Infisical Terraform provider: configuration resolution and data-source reads

A shallow embedding of `provider/provider.go`, `infisical/provider.go`,
`datasource/organizations_data_source.go` and `datasource/projects_data_source.go`.

Calls into libraries outside the repository (the process environment, the
security-provider and HTTP-client constructors, the HTTP round trip, the JSON
value parser, the wall clock, the framework's state conversion) are fields of a
`World` structure: every theorem holds for all of their possible results.

Two rules of `encoding/json` are written out, because the reads depend on them:
a stream without a value gives `io.EOF` (`Decode`), and a parsed value is stored
into the response structs field by field, following their `json:` tags
(`unmarshalMyOrganizationsResponse`, `unmarshalWorkspacesResponse`).
-/

namespace Infisical

/-! ## Go values -/

/-- A Go `error` value as far as the code inspects it: the sentinel `io.EOF`,
or any other error with its `Error()` text. -/
inductive GoError where
  | EOF
  | other (msg : String)
  deriving DecidableEq, Repr

/-- The text of `err.Error()`. -/
def GoError.Error : GoError → String
  | .EOF => "EOF"
  | .other msg => msg

/-- A Go slice; `nil` is the zero value of a slice variable and differs from an
allocated slice of length zero. -/
inductive GoSlice (α : Type) where
  | nil
  | ofList (elems : List α)
  deriving DecidableEq, Repr

/-- The elements a `range` loop visits, in order. -/
def GoSlice.toList {α : Type} : GoSlice α → List α
  | .nil => []
  | .ofList elems => elems

/-- Go's `append(s, x)`: the result is always an allocated slice. -/
def GoSlice.append {α : Type} (s : GoSlice α) (x : α) : GoSlice α :=
  .ofList (s.toList ++ [x])

/-- How a Go function call ends: it returns, or it panics with a value. -/
inductive Outcome (α : Type) where
  | returned (a : α)
  | panicked (err : String)
  deriving DecidableEq, Repr

/-! ## Terraform plugin framework -/

/-- The framework's `types.String`: null, unknown, or a known string. The Go
zero value of the type is null. -/
inductive TFString where
  | null
  | unknown
  | known (s : String)
  deriving DecidableEq, Repr

/-- `types.StringValue(s)`. -/
def StringValue (s : String) : TFString := .known s

/-- `IsNull()`. -/
def TFString.IsNull : TFString → Bool
  | .null => true
  | _ => false

/-- `IsUnknown()`. -/
def TFString.IsUnknown : TFString → Bool
  | .unknown => true
  | _ => false

/-- `ValueString()`: the known string, or the empty string for null and unknown. -/
def TFString.ValueString : TFString → String
  | .known s => s
  | _ => ""

/-- Severity of a diagnostic. -/
inductive Severity where
  | Error
  | Warning
  deriving DecidableEq, Repr

/-- A framework diagnostic; `path` is the attribute path for attribute
diagnostics (`path.Root(name)` is `some name`). -/
structure Diagnostic where
  severity : Severity
  summary : String
  detail : String
  path : Option String
  deriving DecidableEq, Repr

/-- `diag.Diagnostics`. -/
abbrev Diagnostics := List Diagnostic

/-- `Diagnostics.HasError()`. -/
def HasError (diags : Diagnostics) : Bool :=
  diags.any (fun d => d.severity == Severity.Error)

/-- `Diagnostics.Append(in...)`: a diagnostic already contained is skipped. -/
def Append (diags : Diagnostics) (new : Diagnostics) : Diagnostics :=
  new.foldl (fun acc d => if d ∈ acc then acc else acc ++ [d]) diags

/-- `Diagnostics.AddError(summary, detail)`. -/
def AddError (diags : Diagnostics) (summary detail : String) : Diagnostics :=
  Append diags [⟨Severity.Error, summary, detail, none⟩]

/-- `Diagnostics.AddAttributeError(path.Root(root), summary, detail)`. -/
def AddAttributeError (diags : Diagnostics) (root summary detail : String) : Diagnostics :=
  Append diags [⟨Severity.Error, summary, detail, some root⟩]

/-! ## Provider configuration (`provider/provider.go`, `infisical/provider.go`) -/

/-- A request editor handed to `ic.WithRequestEditorFn`: the security provider's
`Intercept` method, or the closure `customProvider` adding the header
`accept: application/json`. -/
inductive RequestEditorFn (π : Type) where
  | Intercept (apiKeyProvider : π)
  | customProvider
  deriving DecidableEq, Repr

/-- What `Configure` calls outside the repository's sources. `π` is the type of
security providers, `κ` the type of API clients. -/
structure ProviderWorld (π κ : Type) where
  /-- `os.Getenv`: the empty string for an unset variable. -/
  Getenv : String → String
  /-- `securityprovider.NewSecurityProviderApiKey(in, name, apiKey)`. -/
  NewSecurityProviderApiKey : String → String → String → Except String π
  /-- `ic.NewClient(server, opts...)` with the request editors of its options. -/
  NewClient : String → List (RequestEditorFn π) → Except String κ

/-- `provider.ConfigureResponse`. -/
structure ConfigureResponse (κ : Type) where
  Diagnostics : Diagnostics
  DataSourceData : Option κ
  ResourceData : Option κ
  deriving DecidableEq, Repr

/-- The response the framework hands to `Configure`. -/
def ConfigureResponse.fresh (κ : Type) : ConfigureResponse κ :=
  { Diagnostics := [], DataSourceData := none, ResourceData := none }

end Infisical

namespace Infisical.provider

open Infisical

/-- `InfisicalProviderModel`. -/
structure InfisicalProviderModel where
  Host : TFString
  ApiToken : TFString
  deriving DecidableEq, Repr

/-- `provider.ConfigureRequest` as `Configure` reads it: the diagnostics and the
model that `req.Config.Get(ctx, &config)` yields. -/
structure ConfigureRequest where
  GetDiags : Diagnostics
  Config : InfisicalProviderModel
  deriving DecidableEq, Repr

/-- The diagnostic of lines 78-83. -/
def unknownApiTokenSummary : String := "Unknown Infisical API Token"

/-- Detail text of the unknown-token diagnostic. -/
def unknownApiTokenDetail : String :=
  "The provider cannot create the Infisical API client as there is an unknown configuration value for the Infisical API Token. " ++
  "Either target apply the source of the value first, set the value statically in the configuration, or use the INFISICAL_API_TOKEN environment variable."

/-- Summary of the diagnostic of lines 111-117. -/
def missingApiTokenSummary : String := "Missing Infisical API Token"

/-- Detail text of the missing-token diagnostic. -/
def missingApiTokenDetail : String :=
  "The provider cannot create the Infisical API client as there is a missing or empty value for the Infisical API Token. " ++
  "Set the api_token value in the configuration or use the INFISICAL_API_TOKEN environment variable. " ++
  "If either is already set, ensure the value is not empty."

/-- Summary of the diagnostic of lines 144-149. -/
def clientErrorSummary : String := "Unable to Create Infisical API Client"

/-- Detail text of the client-construction diagnostic. -/
def clientErrorDetail (err : String) : String :=
  "An unexpected error occurred when creating the Infisical API client. " ++
  "If the error is not clear, please contact the provider developers.\n\n" ++
  "Infisical Client Error: " ++ err

/-- The local `host` after lines 94-102. -/
def resolveHost (getenv : String → String) (config : InfisicalProviderModel) : String :=
  let host := getenv "INFISICAL_HOST"
  let host := if host == "" then "https://infisical.com" else host
  if !config.Host.IsNull then config.Host.ValueString else host

/-- The local `apiToken` after lines 98-106. -/
def resolveApiToken (getenv : String → String) (config : InfisicalProviderModel) : String :=
  let apiToken := getenv "INFISICAL_API_TOKEN"
  if !config.ApiToken.IsNull then config.ApiToken.ValueString else apiToken

/-- `InfisicalProvider.Configure` (lines 64-159). The `tflog` calls change no
result and are left out. -/
def Configure {π κ : Type} (w : ProviderWorld π κ) (req : ConfigureRequest)
    (resp : ConfigureResponse κ) : Outcome (ConfigureResponse κ) :=
  let config := req.Config
  let resp := { resp with Diagnostics := Append resp.Diagnostics req.GetDiags }
  if HasError resp.Diagnostics then .returned resp else
  let resp :=
    if config.ApiToken.IsUnknown then
      { resp with Diagnostics :=
          AddAttributeError resp.Diagnostics "api_token" unknownApiTokenSummary unknownApiTokenDetail }
    else resp
  if HasError resp.Diagnostics then .returned resp else
  let host := resolveHost w.Getenv config
  let apiToken := resolveApiToken w.Getenv config
  let resp :=
    if apiToken == "" then
      { resp with Diagnostics :=
          AddAttributeError resp.Diagnostics "api_token" missingApiTokenSummary missingApiTokenDetail }
    else resp
  if HasError resp.Diagnostics then .returned resp else
  match w.NewSecurityProviderApiKey "header" "X-API-Key" apiToken with
  | .error apiTokenProviderErr => .panicked apiTokenProviderErr
  | .ok apiTokenProvider =>
    match w.NewClient host [.Intercept apiTokenProvider, .customProvider] with
    | .error err =>
      .returned
        { resp with Diagnostics := AddError resp.Diagnostics clientErrorSummary (clientErrorDetail err) }
    | .ok client =>
      .returned { resp with DataSourceData := some client, ResourceData := some client }

end Infisical.provider

namespace Infisical.infisical

open Infisical

/-- `infisicalProviderModel` of the legacy package. -/
structure infisicalProviderModel where
  Host : TFString
  ApiKey : TFString
  deriving DecidableEq, Repr

/-- `provider.ConfigureRequest` as the legacy `Configure` reads it. -/
structure ConfigureRequest where
  GetDiags : Diagnostics
  Config : infisicalProviderModel
  deriving DecidableEq, Repr

/-- Summary of the diagnostic of lines 76-81. -/
def unknownApiKeySummary : String := "Unknown Infisical API Key"

/-- Detail text of the unknown-key diagnostic. -/
def unknownApiKeyDetail : String :=
  "The provider cannot create the Infisical API client as there is an unknown configuration value for the Infisical API Key. " ++
  "Either target apply the source of the value first, set the value statically in the configuration, or use the INFISICAL_API_KEY environment variable."

/-- Summary of the diagnostic of lines 109-115. -/
def missingApiKeySummary : String := "Missing Infisical API Key"

/-- Detail text of the missing-key diagnostic. -/
def missingApiKeyDetail : String :=
  "The provider cannot create the Infisical API client as there is a missing or empty value for the Infisical API Key. " ++
  "Set the api_key value in the configuration or use the INFISICAL_API_KEY environment variable. " ++
  "If either is already set, ensure the value is not empty."

/-- The local `host` after lines 92-100. -/
def resolveHost (getenv : String → String) (config : infisicalProviderModel) : String :=
  let host := getenv "INFISICAL_HOST"
  let host := if host == "" then "https://infisical.com" else host
  if !config.Host.IsNull then config.Host.ValueString else host

/-- The local `apiKey` after lines 96-104. -/
def resolveApiKey (getenv : String → String) (config : infisicalProviderModel) : String :=
  let apiKey := getenv "API_KEY"
  if !config.ApiKey.IsNull then config.ApiKey.ValueString else apiKey

/-- The legacy `infisicalProvider.Configure` (lines 62-151); it reads the key from
the environment variable `API_KEY` and hands `NewClient` one request editor. -/
def Configure {π κ : Type} (w : ProviderWorld π κ) (req : ConfigureRequest)
    (resp : ConfigureResponse κ) : Outcome (ConfigureResponse κ) :=
  let config := req.Config
  let resp := { resp with Diagnostics := Append resp.Diagnostics req.GetDiags }
  if HasError resp.Diagnostics then .returned resp else
  let resp :=
    if config.ApiKey.IsUnknown then
      { resp with Diagnostics :=
          AddAttributeError resp.Diagnostics "api_key" unknownApiKeySummary unknownApiKeyDetail }
    else resp
  if HasError resp.Diagnostics then .returned resp else
  let host := resolveHost w.Getenv config
  let apiKey := resolveApiKey w.Getenv config
  let resp :=
    if apiKey == "" then
      { resp with Diagnostics :=
          AddAttributeError resp.Diagnostics "api_key" missingApiKeySummary missingApiKeyDetail }
    else resp
  if HasError resp.Diagnostics then .returned resp else
  match w.NewSecurityProviderApiKey "header" "X-API-Key" apiKey with
  | .error apiKeyProviderErr => .panicked apiKeyProviderErr
  | .ok apiKeyProvider =>
    match w.NewClient host [.Intercept apiKeyProvider] with
    | .error err =>
      .returned
        { resp with Diagnostics :=
            AddError resp.Diagnostics provider.clientErrorSummary (provider.clientErrorDetail err) }
    | .ok client =>
      .returned { resp with DataSourceData := some client, ResourceData := some client }

end Infisical.infisical

namespace Infisical.datasource

open Infisical

/-! ## Data sources (`datasource/organizations_data_source.go`, `datasource/projects_data_source.go`) -/

/-- An HTTP response body: the bytes the server sent and what `Close()` returns. -/
structure Body where
  data : String
  closeErr : Option String
  deriving DecidableEq, Repr

/-- `http.Response` as the reads use it. -/
structure HttpResponse where
  Body : Body
  deriving DecidableEq, Repr

/-- JSON insignificant whitespace. -/
def jsonIsSpace (c : Char) : Bool :=
  c == ' ' || c == '\t' || c == '\r' || c == '\n'

/-- `json.NewDecoder(body).Decode(&data)` of `encoding/json`: a stream holding no
value (nothing but whitespace up to its end) gives `io.EOF` and leaves `data`
alone; otherwise the value is parsed and stored by `unmarshal`, whose failure is
an error that is not `io.EOF`. -/
def Decode {α : Type} (unmarshal : String → Except String α) (body : String) : Except GoError α :=
  if body.data.all jsonIsSpace then .error GoError.EOF
  else
    match unmarshal body with
    | .ok data => .ok data
    | .error msg => .error (GoError.other msg)

/-- `datasource.ReadResponse`; `State` is `none` until `State.Set` stores a value. -/
structure ReadResponse (σ : Type) where
  State : Option σ
  Diagnostics : Diagnostics
  deriving DecidableEq, Repr

/-- The response the framework hands to `Read`. -/
def ReadResponse.fresh (σ : Type) : ReadResponse σ :=
  { State := none, Diagnostics := [] }

/-- What a `Read` call leaves behind: the response, and how many times the
response body was closed. -/
structure ReadResult (σ : Type) where
  resp : ReadResponse σ
  closes : Nat
  deriving DecidableEq, Repr

/-- `resp.State.Set(ctx, &state)` followed by `resp.Diagnostics.Append(diags...)`:
the framework stores the value unless its conversion reports an error. -/
def StateSet {σ : Type} (convert : σ → Diagnostics) (resp : ReadResponse σ) (state : σ) :
    ReadResponse σ :=
  let diags := convert state
  { State := if HasError diags then resp.State else some state,
    Diagnostics := Append resp.Diagnostics diags }

/-- The deferred closure of both reads: close the body and report a failure. -/
def deferredClose {σ : Type} (body : Body) (resp : ReadResponse σ) : ReadResult σ :=
  match body.closeErr with
  | none => { resp := resp, closes := 1 }
  | some err =>
    let diags := AddError resp.Diagnostics "Unable to close body reader for User" err
    { resp := { resp with Diagnostics := diags }, closes := 1 }

/-- `strconv.FormatInt(i, 10)`. -/
def FormatInt (i : Int) : String := toString i

/-- `OrganizationsModel`. -/
structure OrganizationsModel where
  ID : TFString
  Name : TFString
  deriving DecidableEq, Repr

/-- `OrganizationsDataSourceModel`. -/
structure OrganizationsDataSourceModel where
  Organizations : GoSlice OrganizationsModel
  ID : TFString
  deriving DecidableEq, Repr

/-- The element struct of `MyOrganizationsResponse.Organizations`. -/
structure OrganizationRecord where
  ID : String
  Name : String
  deriving DecidableEq, Repr

/-- `MyOrganizationsResponse`. -/
structure MyOrganizationsResponse where
  Organizations : GoSlice OrganizationRecord
  deriving DecidableEq, Repr

/-- What the organizations `Read` calls outside the repository's sources. -/
structure OrganizationsWorld where
  /-- `d.client.GetApiV2UsersMeOrganizations(ctx)`. -/
  GetApiV2UsersMeOrganizations : Except String HttpResponse
  /-- Parsing one JSON value of the body into `MyOrganizationsResponse`. -/
  unmarshal : String → Except String MyOrganizationsResponse
  /-- `time.Now().Unix()`. -/
  Now : Int
  /-- The diagnostics of the framework's conversion in `State.Set`. -/
  convert : OrganizationsDataSourceModel → Diagnostics

/-- `OrganizationsDataSource.Read` (lines 108-155). The body is closed by the
deferred closure on every path after a successful fetch; the final
`HasError` test only returns. -/
def OrganizationsDataSource.Read (w : OrganizationsWorld)
    (resp : ReadResponse OrganizationsDataSourceModel) : ReadResult OrganizationsDataSourceModel :=
  let state : OrganizationsDataSourceModel := { Organizations := .nil, ID := .null }
  match w.GetApiV2UsersMeOrganizations with
  | .error err =>
    let diags := AddError resp.Diagnostics "Unable to Read Infisical Organizations for User" err
    { resp := { resp with Diagnostics := diags }, closes := 0 }
  | .ok res =>
    let data : MyOrganizationsResponse := { Organizations := .nil }
    match Decode w.unmarshal res.Body.data with
    | .error (.other msg) =>
      let diags := AddError resp.Diagnostics "Unable to Decode Infisical Organizations for User" msg
      deferredClose res.Body { resp with Diagnostics := diags }
    | decoded =>
      let data := match decoded with
        | .ok d => d
        | .error _ => data
      let state := data.Organizations.toList.foldl
        (fun state org =>
          let item : OrganizationsModel := { ID := StringValue org.ID, Name := StringValue org.Name }
          { state with Organizations := state.Organizations.append item })
        state
      let state := { state with ID := StringValue (FormatInt w.Now) }
      deferredClose res.Body (StateSet w.convert resp state)

/-- `ProjectEnvironmentModel`. -/
structure ProjectEnvironmentModel where
  ID : TFString
  Name : TFString
  Slug : TFString
  deriving DecidableEq, Repr

/-- `ProjectsModel`. -/
structure ProjectsModel where
  ID : TFString
  Name : TFString
  Environments : GoSlice ProjectEnvironmentModel
  deriving DecidableEq, Repr

/-- `ProjectsDataSourceModel`. -/
structure ProjectsDataSourceModel where
  ID : TFString
  OrganizationId : TFString
  Projects : GoSlice ProjectsModel
  deriving DecidableEq, Repr

/-- `EnvironmentReturn`. -/
structure EnvironmentReturn where
  ID : String
  Name : String
  Slug : String
  deriving DecidableEq, Repr

/-- `EnvironmentReturnList`. -/
abbrev EnvironmentReturnList := GoSlice EnvironmentReturn

/-- The element struct of `WorkspacesResponse.Projects`. -/
structure WorkspaceRecord where
  ID : String
  Name : String
  Organization : String
  Environments : EnvironmentReturnList
  deriving DecidableEq, Repr

/-- `WorkspacesResponse`. -/
structure WorkspacesResponse where
  Projects : GoSlice WorkspaceRecord
  deriving DecidableEq, Repr

/-- `datasource.ReadRequest` as the projects `Read` uses it: the diagnostics of
`req.Config.GetAttribute(ctx, path.Root("organization_id"), &organizationId)` and
the value of `organizationId` after the call. -/
structure ReadRequest where
  GetAttributeDiags : Diagnostics
  organizationId : TFString
  deriving DecidableEq, Repr

/-- What the projects `Read` calls outside the repository's sources. -/
structure ProjectsWorld where
  /-- `d.client.GetApiV2OrganizationsOrganizationIdWorkspaces(ctx, organizationId)`. -/
  GetApiV2OrganizationsOrganizationIdWorkspaces : String → Except String HttpResponse
  /-- Parsing one JSON value of the body into `WorkspacesResponse`. -/
  unmarshal : String → Except String WorkspacesResponse
  /-- `time.Now().Unix()`. -/
  Now : Int
  /-- The diagnostics of the framework's conversion in `State.Set`. -/
  convert : ProjectsDataSourceModel → Diagnostics

/-- `ProjectsDataSource.Read` (lines 151-213). The diagnostics of `GetAttribute`
are appended and the read goes on to the fetch without testing them. -/
def ProjectsDataSource.Read (w : ProjectsWorld) (req : ReadRequest)
    (resp : ReadResponse ProjectsDataSourceModel) : ReadResult ProjectsDataSourceModel :=
  let state : ProjectsDataSourceModel := { ID := .null, OrganizationId := .null, Projects := .nil }
  let organizationId := req.organizationId
  let resp := { resp with Diagnostics := Append resp.Diagnostics req.GetAttributeDiags }
  match w.GetApiV2OrganizationsOrganizationIdWorkspaces organizationId.ValueString with
  | .error err =>
    let diags := AddError resp.Diagnostics "Unable to Read Infisical Projects for User" err
    { resp := { resp with Diagnostics := diags }, closes := 0 }
  | .ok res =>
    let data : WorkspacesResponse := { Projects := .nil }
    match Decode w.unmarshal res.Body.data with
    | .error (.other msg) =>
      let diags := AddError resp.Diagnostics "Unable to Decode Infisical Projects for User" msg
      deferredClose res.Body { resp with Diagnostics := diags }
    | decoded =>
      let data := match decoded with
        | .ok d => d
        | .error _ => data
      let state := data.Projects.toList.foldl
        (fun state proj =>
          let environments : GoSlice ProjectEnvironmentModel := .nil
          let environments := proj.Environments.toList.foldl
            (fun environments env =>
              environments.append
                { ID := StringValue env.ID, Name := StringValue env.Name, Slug := StringValue env.Slug })
            environments
          let item : ProjectsModel :=
            { ID := StringValue proj.ID, Name := StringValue proj.Name, Environments := environments }
          { state with Projects := state.Projects.append item })
        state
      let state := { state with OrganizationId := organizationId }
      let state := { state with ID := StringValue (FormatInt w.Now) }
      deferredClose res.Body (StateSet w.convert resp state)

end Infisical.datasource

namespace Infisical.datasource.Examples

open Infisical Infisical.datasource

/-- A response body with one organization. -/
def acmeBody : String :=
  "\x7b\"organizations\":[\x7b\"_id\":\"o1\",\"name\":\"Acme\"\x7d]\x7d"

/-- The records a JSON parser reads from `acmeBody`. -/
def acmeData : MyOrganizationsResponse :=
  { Organizations := .ofList [{ ID := "o1", Name := "Acme" }] }

/-- A world in which the service answers with `acmeBody`. -/
def acmeWorld : OrganizationsWorld :=
  { GetApiV2UsersMeOrganizations := .ok { Body := { data := acmeBody, closeErr := none } },
    unmarshal := fun body => if body = acmeBody then .ok acmeData else .error "invalid character",
    Now := 1700000000,
    convert := fun _ => [] }

end Infisical.datasource.Examples

namespace Infisical.datasource.Examples

open Infisical Infisical.datasource

/-- A workspaces response body with one project and one environment. -/
def projBody : String :=
  "\x7b\"workspaces\":[\x7b\"_id\":\"p1\",\"name\":\"Proj\",\"organization\":\"org1\",\"environments\":[\x7b\"_id\":\"e1\",\"name\":\"dev\",\"slug\":\"dev\"\x7d]\x7d]\x7d"

/-- The records a JSON parser reads from `projBody`. -/
def projData : WorkspacesResponse :=
  { Projects := .ofList
      [{ ID := "p1", Name := "Proj", Organization := "org1",
         Environments := .ofList [{ ID := "e1", Name := "dev", Slug := "dev" }] }] }

/-- A world in which the service answers the key `org1` with `projBody`. -/
def projWorld : ProjectsWorld :=
  { GetApiV2OrganizationsOrganizationIdWorkspaces := fun organizationId =>
      if organizationId = "org1" then .ok { Body := { data := projBody, closeErr := none } }
      else .error "not found",
    unmarshal := fun body => if body = projBody then .ok projData else .error "invalid character",
    Now := 1700000000,
    convert := fun _ => [] }

/-- A read request whose `organization_id` is the known string `org1`. -/
def projRequest : ReadRequest :=
  { GetAttributeDiags := [], organizationId := .known "org1" }

end Infisical.datasource.Examples

namespace Infisical

/-- An explicit configuration value that is not unknown: absent (null) or a
known string. -/
def TFString.ofOption : Option String → TFString
  | none => .null
  | some s => .known s

end Infisical

namespace Infisical.provider.Examples

open Infisical Infisical.provider

/-- A world with an empty environment in which both constructors succeed; a
security provider is its key, a client is its server URL. -/
def emptyEnvWorld : ProviderWorld String String :=
  { Getenv := fun _ => "",
    NewSecurityProviderApiKey := fun _ _ apiKey => .ok apiKey,
    NewClient := fun server _ => .ok server }

/-- A world whose environment sets `INFISICAL_API_TOKEN` to `ak.env`. -/
def tokenEnvWorld : ProviderWorld String String :=
  { Getenv := fun name => if name = "INFISICAL_API_TOKEN" then "ak.env" else "",
    NewSecurityProviderApiKey := fun _ _ apiKey => .ok apiKey,
    NewClient := fun server _ => .ok server }

/-- A configuration that sets neither `host` nor `api_token`. -/
def nullRequest : ConfigureRequest :=
  { GetDiags := [], Config := { Host := .null, ApiToken := .null } }

end Infisical.provider.Examples

namespace Infisical.provider.Examples

open Infisical Infisical.provider

/-- A configuration whose `host` is present but unknown and whose `api_token` is
the known string `ak.token`. -/
def unknownHostRequest : ConfigureRequest :=
  { GetDiags := [], Config := { Host := .unknown, ApiToken := .known "ak.token" } }

end Infisical.provider.Examples

namespace Infisical.datasource.Examples

open Infisical Infisical.datasource

/-- A world in which the organizations fetch succeeds with a zero-length body. -/
def emptyBodyWorld : OrganizationsWorld :=
  { GetApiV2UsersMeOrganizations := .ok { Body := { data := "", closeErr := none } },
    unmarshal := fun _ => .error "unexpected end of JSON input",
    Now := 1700000000,
    convert := fun _ => [] }

/-- A world in which every workspaces fetch succeeds with a zero-length body. -/
def emptyBodyProjectsWorld : ProjectsWorld :=
  { GetApiV2OrganizationsOrganizationIdWorkspaces := fun _ =>
      .ok { Body := { data := "", closeErr := none } },
    unmarshal := fun _ => .error "unexpected end of JSON input",
    Now := 1700000000,
    convert := fun _ => [] }

end Infisical.datasource.Examples

namespace Infisical.datasource.Examples

open Infisical Infisical.datasource

/-- A world in which the organizations fetch succeeds with a body holding a
single space. -/
def blankBodyWorld : OrganizationsWorld :=
  { GetApiV2UsersMeOrganizations := .ok { Body := { data := " ", closeErr := none } },
    unmarshal := fun _ => .error "unexpected end of JSON input",
    Now := 1700000000,
    convert := fun _ => [] }

/-- A world in which the organizations fetch succeeds with a body that is not
JSON. -/
def malformedBodyWorld : OrganizationsWorld :=
  { GetApiV2UsersMeOrganizations := .ok { Body := { data := "<html>", closeErr := none } },
    unmarshal := fun _ => .error "invalid character at the beginning of value",
    Now := 1700000000,
    convert := fun _ => [] }

/-- A world in which every workspaces fetch succeeds with a body that is not
JSON. -/
def malformedBodyProjectsWorld : ProjectsWorld :=
  { GetApiV2OrganizationsOrganizationIdWorkspaces := fun _ =>
      .ok { Body := { data := "<html>", closeErr := none } },
    unmarshal := fun _ => .error "invalid character at the beginning of value",
    Now := 1700000000,
    convert := fun _ => [] }

end Infisical.datasource.Examples

namespace Infisical.datasource.Examples

open Infisical Infisical.datasource

/-- Decoded records whose only workspace names another organization (`org2`). -/
def foreignOrgData : WorkspacesResponse :=
  { Projects :=
      .ofList [{ ID := "p1", Name := "Proj", Organization := "org2", Environments := .nil }] }

/-- A world whose workspaces response for the key `org1` decodes into
`foreignOrgData`. -/
def foreignOrgWorld : ProjectsWorld :=
  { GetApiV2OrganizationsOrganizationIdWorkspaces := fun organizationId =>
      if organizationId = "org1" then .ok { Body := { data := "[p1]", closeErr := none } }
      else .error "not found",
    unmarshal := fun _ => .ok foreignOrgData,
    Now := 1700000000,
    convert := fun _ => [] }

end Infisical.datasource.Examples

namespace Infisical.datasource.Examples

open Infisical Infisical.datasource

/-- A world that answers every organization key, the empty one included, with
`projBody`. -/
def anyKeyWorld : ProjectsWorld :=
  { GetApiV2OrganizationsOrganizationIdWorkspaces := fun _ =>
      .ok { Body := { data := projBody, closeErr := none } },
    unmarshal := fun body => if body = projBody then .ok projData else .error "invalid character",
    Now := 1700000000,
    convert := fun _ => [] }

/-- The error diagnostic of a failed `GetAttribute`. -/
def attributeError : Diagnostic :=
  ⟨Severity.Error, "Invalid Configuration Attribute", "organization_id cannot be read",
    some "organization_id"⟩

/-- A read request for which reading `organization_id` raises an error diagnostic
and leaves `organizationId` at its zero value. -/
def failingAttributeRequest : ReadRequest :=
  { GetAttributeDiags := [attributeError], organizationId := .null }

end Infisical.datasource.Examples

namespace Infisical.provider.Examples

open Infisical Infisical.provider

/-- A world in which building the security provider fails. -/
def failingKeyWorld : ProviderWorld String String :=
  { Getenv := fun _ => "",
    NewSecurityProviderApiKey := fun _ _ _ => .error "security provider cannot be built",
    NewClient := fun server _ => .ok server }

/-- A world in which the security provider is built and the client constructor
fails. -/
def failingClientWorld : ProviderWorld String String :=
  { Getenv := fun _ => "",
    NewSecurityProviderApiKey := fun _ _ apiKey => .ok apiKey,
    NewClient := fun _ _ => .error "parse error" }

/-- The configuration of the acceptance tests: known token and host. -/
def knownRequest : ConfigureRequest :=
  { GetDiags := [],
    Config := { Host := .known "https://infisical.com", ApiToken := .known "ak.token" } }

/-- The same configuration for the legacy provider. -/
def knownLegacyRequest : infisical.ConfigureRequest :=
  { GetDiags := [],
    Config := { Host := .known "https://infisical.com", ApiKey := .known "ak.token" } }

end Infisical.provider.Examples

namespace Infisical

/-- A list attribute as the framework stores it in the state: null, or a known
list of elements. -/
inductive TFList (α : Type) where
  | null
  | known (elems : List α)
  deriving DecidableEq, Repr

/-- The framework's conversion of a Go slice field in `State.Set`
(`reflect.FromSlice`): the nil slice becomes a null list, an allocated slice a
known list of its elements. -/
def FromSlice {α : Type} : GoSlice α → TFList α
  | .nil => .null
  | .ofList elems => .known elems

end Infisical

namespace Infisical.datasource.Examples

open Infisical Infisical.datasource

/-- A world in which the organizations response holds an empty array. -/
def emptyArrayWorld : OrganizationsWorld :=
  { GetApiV2UsersMeOrganizations :=
      .ok { Body := { data := "\x7b\"organizations\":[]\x7d", closeErr := none } },
    unmarshal := fun _ => .ok { Organizations := .ofList [] },
    Now := 1700000000,
    convert := fun _ => [] }

/-- A world in which every workspaces response holds an empty array. -/
def emptyArrayProjectsWorld : ProjectsWorld :=
  { GetApiV2OrganizationsOrganizationIdWorkspaces := fun _ =>
      .ok { Body := { data := "\x7b\"workspaces\":[]\x7d", closeErr := none } },
    unmarshal := fun _ => .ok { Projects := .ofList [] },
    Now := 1700000000,
    convert := fun _ => [] }

end Infisical.datasource.Examples

namespace Infisical.datasource.Examples

open Infisical Infisical.datasource

/-- A world in which the organizations fetch fails. -/
def unreachableWorld : OrganizationsWorld :=
  { GetApiV2UsersMeOrganizations := .error "connection refused",
    unmarshal := fun _ => .error "invalid character",
    Now := 1700000000,
    convert := fun _ => [] }

/-- A world like `acmeWorld` in which the framework rejects the state value. -/
def rejectingWorld : OrganizationsWorld :=
  { GetApiV2UsersMeOrganizations := .ok { Body := { data := acmeBody, closeErr := none } },
    unmarshal := fun body => if body = acmeBody then .ok acmeData else .error "invalid character",
    Now := 1700000000,
    convert := fun _ => [⟨Severity.Error, "Value Conversion Error", "mismatch", none⟩] }

/-- A world like `acmeWorld` in which closing the body fails. -/
def closeFailureWorld : OrganizationsWorld :=
  { GetApiV2UsersMeOrganizations :=
      .ok { Body := { data := acmeBody, closeErr := some "close failed" } },
    unmarshal := fun body => if body = acmeBody then .ok acmeData else .error "invalid character",
    Now := 1700000000,
    convert := fun _ => [] }

/-- A world like `projWorld` in which closing the body fails. -/
def closeFailureProjectsWorld : ProjectsWorld :=
  { GetApiV2OrganizationsOrganizationIdWorkspaces := fun _ =>
      .ok { Body := { data := projBody, closeErr := some "close failed" } },
    unmarshal := fun body => if body = projBody then .ok projData else .error "invalid character",
    Now := 1700000000,
    convert := fun _ => [] }

end Infisical.datasource.Examples

namespace Infisical.provider.Examples

open Infisical Infisical.provider

/-- A world whose environment sets only `INFISICAL_API_KEY`, to `ak.env`. -/
def documentedKeyEnvWorld : ProviderWorld String String :=
  { Getenv := fun name => if name = "INFISICAL_API_KEY" then "ak.env" else "",
    NewSecurityProviderApiKey := fun _ _ apiKey => .ok apiKey,
    NewClient := fun server _ => .ok server }

/-- A world whose environment sets only `API_KEY`, to `ak.env`. -/
def bareKeyEnvWorld : ProviderWorld String String :=
  { Getenv := fun name => if name = "API_KEY" then "ak.env" else "",
    NewSecurityProviderApiKey := fun _ _ apiKey => .ok apiKey,
    NewClient := fun server _ => .ok server }

/-- A legacy configuration that sets neither `host` nor `api_key`. -/
def nullLegacyRequest : infisical.ConfigureRequest :=
  { GetDiags := [], Config := { Host := .null, ApiKey := .null } }

end Infisical.provider.Examples

namespace Infisical.datasource

/-- Reading decimal digits from left to right onto the accumulator `acc`; `none`
as soon as a character is not a decimal digit. -/
def parseDigitsAux (acc : Nat) : List Char → Option Nat
  | [] => some acc
  | c :: cs => if c.isDigit then parseDigitsAux (acc * 10 + (c.toNat - 48)) cs else none

/-- Reading a string of one or more decimal digits as a non-negative integer. -/
def parseDigits : List Char → Option Nat
  | [] => none
  | c :: cs => parseDigitsAux 0 (c :: cs)

/-- Reading a string as a decimal integer: an optional minus sign followed by
one or more decimal digits. -/
def parseDecimal (s : String) : Option Int :=
  match s.data with
  | [] => none
  | c :: cs =>
    if c = '-' then (parseDigits cs).map (fun n => -(n : Int))
    else (parseDigits (c :: cs)).map (fun n => (n : Int))

end Infisical.datasource

namespace Infisical.datasource.Examples

open Infisical Infisical.datasource

/-- The world `acmeWorld` five seconds later. -/
def laterAcmeWorld : OrganizationsWorld :=
  { acmeWorld with Now := 1700000005 }

/-- The world `projWorld` seven seconds later. -/
def laterProjWorld : ProjectsWorld :=
  { projWorld with Now := 1700000007 }

end Infisical.datasource.Examples

namespace Infisical.datasource

open Infisical

/-- A parsed JSON value; a string holds its decoded text, a number its literal. -/
inductive JSON where
  | null
  | bool (b : Bool)
  | number (literal : String)
  | string (s : String)
  | array (elems : List JSON)
  | object (members : List (String × JSON))

/-- Case folding of `encoding/json` on the characters that can match an ASCII
field name: ASCII letters fold to upper case, the Kelvin sign to `K` and the long
s to `S`; every other character is left alone. -/
def foldRune (c : Char) : Char :=
  if 97 ≤ c.toNat ∧ c.toNat ≤ 122 then Char.ofNat (c.toNat - 32)
  else if c.toNat = 0x212A then 'K'
  else if c.toNat = 0x17F then 'S'
  else c

/-- Whether an object key names the struct field tagged `name`: equality
ignoring case. -/
def equalFold (key name : String) : Bool :=
  key.data.map foldRune == name.data.map foldRune

/-- The member of a JSON object that is stored into the struct field tagged
`name`, if the object has one. The decoding below covers objects that name no
field twice. -/
def member? (name : String) (members : List (String × JSON)) : Option JSON :=
  (members.find? (fun m => equalFold m.1 name)).map (fun m => m.2)

/-- Storing a member into a Go `string` field holding its zero value: an absent
member and `null` leave the empty string, a JSON string is stored, any other
value is a type error (`none`). -/
def unmarshalString : Option JSON → Option String
  | none => some ""
  | some .null => some ""
  | some (.string s) => some s
  | some _ => none

/-- Storing the elements of a JSON array one by one; the first type error wins. -/
def unmarshalList {α : Type} (elem : JSON → Option α) : List JSON → Option (List α)
  | [] => some []
  | j :: rest =>
    match elem j with
    | none => none
    | some a =>
      match unmarshalList elem rest with
      | none => none
      | some as => some (a :: as)

/-- Storing a member into a Go slice field holding nil: an absent member and
`null` leave nil, a JSON array gives an allocated slice of its stored elements,
any other value is a type error. -/
def unmarshalSlice {α : Type} (elem : JSON → Option α) : Option JSON → Option (GoSlice α)
  | none => some .nil
  | some .null => some .nil
  | some (.array elems) =>
    match unmarshalList elem elems with
    | none => none
    | some as => some (.ofList as)
  | some _ => none

/-- Storing a JSON value into the element struct of
`MyOrganizationsResponse.Organizations` (tags `_id`, `name`). -/
def unmarshalOrganizationRecord : JSON → Option OrganizationRecord
  | .null => some { ID := "", Name := "" }
  | .object members =>
    match unmarshalString (member? "_id" members), unmarshalString (member? "name" members) with
    | some id, some name => some { ID := id, Name := name }
    | _, _ => none
  | _ => none

/-- Storing a JSON value into `MyOrganizationsResponse` (tag `organizations`). -/
def unmarshalMyOrganizationsResponse : JSON → Option MyOrganizationsResponse
  | .null => some { Organizations := .nil }
  | .object members =>
    match unmarshalSlice unmarshalOrganizationRecord (member? "organizations" members) with
    | some organizations => some { Organizations := organizations }
    | none => none
  | _ => none

/-- Storing a JSON value into `EnvironmentReturn` (tags `_id`, `name`, `slug`). -/
def unmarshalEnvironmentReturn : JSON → Option EnvironmentReturn
  | .null => some { ID := "", Name := "", Slug := "" }
  | .object members =>
    match unmarshalString (member? "_id" members), unmarshalString (member? "name" members),
      unmarshalString (member? "slug" members) with
    | some id, some name, some slug => some { ID := id, Name := name, Slug := slug }
    | _, _, _ => none
  | _ => none

/-- Storing a JSON value into the element struct of `WorkspacesResponse.Projects`
(tags `_id`, `name`, `organization`, `environments`). -/
def unmarshalWorkspaceRecord : JSON → Option WorkspaceRecord
  | .null => some { ID := "", Name := "", Organization := "", Environments := .nil }
  | .object members =>
    match unmarshalString (member? "_id" members), unmarshalString (member? "name" members),
      unmarshalString (member? "organization" members),
      unmarshalSlice unmarshalEnvironmentReturn (member? "environments" members) with
    | some id, some name, some organization, some environments =>
      some { ID := id, Name := name, Organization := organization, Environments := environments }
    | _, _, _, _ => none
  | _ => none

/-- Storing a JSON value into `WorkspacesResponse` (tag `workspaces`). -/
def unmarshalWorkspacesResponse : JSON → Option WorkspacesResponse
  | .null => some { Projects := .nil }
  | .object members =>
    match unmarshalSlice unmarshalWorkspaceRecord (member? "workspaces" members) with
    | some projects => some { Projects := projects }
    | none => none
  | _ => none

/-- `json.Unmarshal` of a body in two steps: the text is parsed into a value by
`parse`, whose failure is a syntax error, and the value is stored into the Go
value by `store`, whose failure is a type error with the text `typeError`. -/
def unmarshalVia {α : Type} (parse : String → Except String JSON) (typeError : JSON → String)
    (store : JSON → Option α) (body : String) : Except String α :=
  match parse body with
  | .error e => .error e
  | .ok j =>
    match store j with
    | none => .error (typeError j)
    | some data => .ok data

/-- Whether a JSON value is a string. -/
def JSON.isString : JSON → Bool
  | .string _ => true
  | _ => false

/-- The text of a member that holds a JSON string; the empty string otherwise,
in particular for an absent member. -/
def stringOrEmpty : Option JSON → String
  | some (.string s) => s
  | _ => ""

/-- Every member of the object whose key names one of the fields `names` holds a
JSON string. -/
def stringMembers (names : List String) (members : List (String × JSON)) : Bool :=
  members.all (fun m => !(names.any (fun n => equalFold m.1 n)) || m.2.isString)

/-- No two keys of the object are equal ignoring case. -/
def namesOnce (members : List (String × JSON)) : Bool :=
  decide ((members.map (fun m => m.1.data.map foldRune)).Nodup)

/-- The `environments` member of a well-formed workspace record: absent, or an
array of objects that name no field twice and hold strings under `_id`, `name`
and `slug`. -/
def environmentsOK : Option JSON → Bool
  | none => true
  | some (.array elems) =>
    elems.all (fun e =>
      match e with
      | .object members => namesOnce members && stringMembers ["_id", "name", "slug"] members
      | _ => false)
  | some _ => false

end Infisical.datasource

namespace Infisical.datasource.Examples

open Infisical Infisical.datasource

/-- An organizations body whose first record omits `_id` and whose second record
omits both fields. -/
def sparseBody : String :=
  "\x7b\"organizations\":[\x7b\"name\":\"Acme\"\x7d,\x7b\x7d]\x7d"

/-- The record objects of `sparseBody`. -/
def sparseRecords : List (List (String × JSON)) :=
  [[("name", JSON.string "Acme")], []]

/-- A workspaces body whose first record has only `_id` and whose second record
omits `_id` and `organization`. -/
def sparseProjectsBody : String :=
  "\x7b\"workspaces\":[\x7b\"_id\":\"p1\"\x7d,\x7b\"name\":\"Proj\",\"environments\":[\x7b\"slug\":\"dev\"\x7d]\x7d]\x7d"

/-- The record objects of `sparseProjectsBody`. -/
def sparseProjectsRecords : List (List (String × JSON)) :=
  [[("_id", JSON.string "p1")],
   [("name", JSON.string "Proj"),
    ("environments", JSON.array [JSON.object [("slug", JSON.string "dev")]])]]

/-- A parser that knows the two sparse bodies. -/
def sparseParse (body : String) : Except String JSON :=
  if body = sparseBody then
    .ok (JSON.object [("organizations", JSON.array (sparseRecords.map JSON.object))])
  else if body = sparseProjectsBody then
    .ok (JSON.object [("workspaces", JSON.array (sparseProjectsRecords.map JSON.object))])
  else .error "invalid character"

/-- The text of a type error. -/
def sparseTypeError (_ : JSON) : String := "json: cannot unmarshal value into Go value"

/-- A world in which the service answers with `sparseBody`. -/
def sparseWorld : OrganizationsWorld :=
  { GetApiV2UsersMeOrganizations := .ok { Body := { data := sparseBody, closeErr := none } },
    unmarshal := unmarshalVia sparseParse sparseTypeError unmarshalMyOrganizationsResponse,
    Now := 1700000000,
    convert := fun _ => [] }

/-- A world in which the service answers every key with `sparseProjectsBody`. -/
def sparseProjectsWorld : ProjectsWorld :=
  { GetApiV2OrganizationsOrganizationIdWorkspaces := fun _ =>
      .ok { Body := { data := sparseProjectsBody, closeErr := none } },
    unmarshal := unmarshalVia sparseParse sparseTypeError unmarshalWorkspacesResponse,
    Now := 1700000000,
    convert := fun _ => [] }

end Infisical.datasource.Examples

/-! # Theorems -/

namespace Infisical

theorem mem_Append (ds new : Diagnostics) (x : Diagnostic) :
    x ∈ Append ds new ↔ x ∈ ds ∨ x ∈ new := by
  unfold Append
  induction new generalizing ds with
  | nil => simp
  | cons d rest ih =>
    simp only [List.foldl_cons]
    rw [ih]
    by_cases h : d ∈ ds
    · simp only [h, if_true, List.mem_cons]
      constructor
      · rintro (h1 | h1)
        · exact Or.inl h1
        · exact Or.inr (Or.inr h1)
      · rintro (h1 | h1 | h1)
        · exact Or.inl h1
        · exact Or.inl (h1 ▸ h)
        · exact Or.inr h1
    · simp only [h, if_false, List.mem_append, List.mem_singleton, List.mem_cons]
      tauto

theorem HasError_iff (ds : Diagnostics) :
    HasError ds = true ↔ ∃ d ∈ ds, d.severity = Severity.Error := by
  simp [HasError]

theorem HasError_Append (ds new : Diagnostics) :
    HasError (Append ds new) = (HasError ds || HasError new) := by
  rw [Bool.eq_iff_iff]
  simp only [Bool.or_eq_true, HasError_iff, mem_Append]
  constructor
  · rintro ⟨d, hd | hd, he⟩
    · exact Or.inl ⟨d, hd, he⟩
    · exact Or.inr ⟨d, hd, he⟩
  · rintro (⟨d, hd, he⟩ | ⟨d, hd, he⟩)
    · exact ⟨d, Or.inl hd, he⟩
    · exact ⟨d, Or.inr hd, he⟩

theorem Append_nil (ds : Diagnostics) : Append ds [] = ds := rfl

theorem GoSlice.toList_nil {α : Type} : (GoSlice.nil : GoSlice α).toList = [] := rfl

theorem GoSlice.toList_ofList {α : Type} (l : List α) : (GoSlice.ofList l).toList = l := rfl

theorem GoSlice.toList_nil_or_map {α β : Type} (l : List α) (f : α → β) :
    (if l.isEmpty then (GoSlice.nil : GoSlice β) else GoSlice.ofList (l.map f)).toList
      = l.map f := by
  cases l <;> rfl

end Infisical

namespace Infisical.datasource
open Infisical

theorem deferredClose_State {σ : Type} (body : Body) (resp : ReadResponse σ) :
    (deferredClose body resp).resp.State = resp.State := by
  unfold deferredClose
  cases body.closeErr <;> rfl

theorem deferredClose_closes {σ : Type} (body : Body) (resp : ReadResponse σ) :
    (deferredClose body resp).closes = 1 := by
  unfold deferredClose
  cases body.closeErr <;> rfl

theorem StateSet_State {σ : Type} (convert : σ → Diagnostics) (resp : ReadResponse σ) (state : σ)
    (h : HasError (convert state) = false) : (StateSet convert resp state).State = some state := by
  simp [StateSet, h]

theorem foldl_organizations (l : List OrganizationRecord) (st : OrganizationsDataSourceModel) :
    l.foldl
      (fun state org =>
        let item : OrganizationsModel := { ID := StringValue org.ID, Name := StringValue org.Name }
        { state with Organizations := state.Organizations.append item })
      st
    = { Organizations :=
          if l.isEmpty then st.Organizations
          else .ofList (st.Organizations.toList ++
            l.map (fun org => { ID := TFString.known org.ID, Name := TFString.known org.Name })),
        ID := st.ID } := by
  induction l generalizing st with
  | nil => simp
  | cons a rest ih =>
    rw [List.foldl_cons, ih]
    cases rest <;> simp [GoSlice.append, GoSlice.toList, StringValue]

end Infisical.datasource

namespace Infisical.datasource
open Infisical

/-- The organizations state built by lines 140-147 from decoded `data`. -/
theorem organizations_Read_ok (w : OrganizationsWorld)
    (resp : ReadResponse OrganizationsDataSourceModel) (res : HttpResponse)
    (data : MyOrganizationsResponse)
    (hfetch : w.GetApiV2UsersMeOrganizations = .ok res)
    (hdec : Decode w.unmarshal res.Body.data = .ok data) :
    OrganizationsDataSource.Read w resp =
      deferredClose res.Body (StateSet w.convert resp
        { Organizations :=
            if data.Organizations.toList.isEmpty then GoSlice.nil
            else .ofList (data.Organizations.toList.map
              (fun org => { ID := TFString.known org.ID, Name := TFString.known org.Name })),
          ID := StringValue (FormatInt w.Now) }) := by
  unfold OrganizationsDataSource.Read
  simp only [hfetch, hdec, foldl_organizations]
  simp [GoSlice.toList]

end Infisical.datasource

namespace Infisical.datasource
open Infisical

/-- C1: when the fetched body decodes into `data`, and the framework's state
conversion reports no error, the organizations `Read` sets a state whose
organizations list has exactly as many entries as `data.Organizations`, and its
i-th entry has the `_id` and `name` of the i-th source record, for every index i
(same order, nothing dropped, duplicated or re-sorted). -/
theorem C1_organizations_roundtrip (w : OrganizationsWorld)
    (resp : ReadResponse OrganizationsDataSourceModel) (res : HttpResponse)
    (data : MyOrganizationsResponse)
    (hfetch : w.GetApiV2UsersMeOrganizations = .ok res)
    (hdec : Decode w.unmarshal res.Body.data = .ok data)
    (hset : ∀ st, HasError (w.convert st) = false) :
    ∃ st, (OrganizationsDataSource.Read w resp).resp.State = some st ∧
      st.Organizations.toList.length = data.Organizations.toList.length ∧
      (∀ i : Nat, (st.Organizations.toList[i]?).map (fun (o : OrganizationsModel) => (o.ID, o.Name)) =
        (data.Organizations.toList[i]?).map
          (fun (r : OrganizationRecord) => (TFString.known r.ID, TFString.known r.Name))) ∧
      st.Organizations.toList = data.Organizations.toList.map
        (fun r => { ID := TFString.known r.ID, Name := TFString.known r.Name }) := by
  rw [organizations_Read_ok w resp res data hfetch hdec, deferredClose_State,
    StateSet_State _ _ _ (hset _)]
  refine ⟨_, rfl, ?_, ?_, ?_⟩
  · simp only [GoSlice.toList_nil_or_map, List.length_map]
  · intro i
    simp only [GoSlice.toList_nil_or_map, List.getElem?_map, Option.map_map]
    rfl
  · simp only [GoSlice.toList_nil_or_map]

/-- Witness of C1 on the body with the single organization `o1`/`Acme`. -/
theorem C1_organizations_roundtrip_witness :
    Examples.acmeWorld.GetApiV2UsersMeOrganizations
        = .ok { Body := { data := Examples.acmeBody, closeErr := none } } ∧
      Decode Examples.acmeWorld.unmarshal Examples.acmeBody = .ok Examples.acmeData ∧
      (OrganizationsDataSource.Read Examples.acmeWorld (ReadResponse.fresh _)).resp.State =
        some { Organizations := .ofList [{ ID := .known "o1", Name := .known "Acme" }],
               ID := StringValue (FormatInt 1700000000) } ∧
      ∃ st, (OrganizationsDataSource.Read Examples.acmeWorld (ReadResponse.fresh _)).resp.State
          = some st ∧
        st.Organizations.toList.length = Examples.acmeData.Organizations.toList.length ∧
        (∀ i : Nat, (st.Organizations.toList[i]?).map (fun (o : OrganizationsModel) => (o.ID, o.Name)) =
          (Examples.acmeData.Organizations.toList[i]?).map
            (fun (r : OrganizationRecord) => (TFString.known r.ID, TFString.known r.Name))) ∧
        st.Organizations.toList = Examples.acmeData.Organizations.toList.map
          (fun r => { ID := TFString.known r.ID, Name := TFString.known r.Name }) :=
  ⟨rfl, rfl, rfl,
    C1_organizations_roundtrip Examples.acmeWorld (ReadResponse.fresh _)
      { Body := { data := Examples.acmeBody, closeErr := none } } Examples.acmeData rfl
      rfl (fun _ => rfl)⟩

end Infisical.datasource

namespace Infisical.datasource
open Infisical

theorem foldl_environments (l : List EnvironmentReturn) (acc : GoSlice ProjectEnvironmentModel) :
    l.foldl
      (fun environments env =>
        environments.append
          { ID := StringValue env.ID, Name := StringValue env.Name, Slug := StringValue env.Slug })
      acc
    = if l.isEmpty then acc
      else .ofList (acc.toList ++ l.map (fun env =>
        { ID := TFString.known env.ID, Name := TFString.known env.Name,
          Slug := TFString.known env.Slug })) := by
  induction l generalizing acc with
  | nil => simp
  | cons a rest ih =>
    rw [List.foldl_cons, ih]
    cases rest <;> simp [GoSlice.append, GoSlice.toList, StringValue]

theorem foldl_projects (l : List WorkspaceRecord) (st : ProjectsDataSourceModel) :
    l.foldl
      (fun state proj =>
        let environments : GoSlice ProjectEnvironmentModel := .nil
        let environments := proj.Environments.toList.foldl
          (fun environments env =>
            environments.append
              { ID := StringValue env.ID, Name := StringValue env.Name, Slug := StringValue env.Slug })
          environments
        let item : ProjectsModel :=
          { ID := StringValue proj.ID, Name := StringValue proj.Name, Environments := environments }
        { state with Projects := state.Projects.append item })
      st
    = { ID := st.ID, OrganizationId := st.OrganizationId,
        Projects :=
          if l.isEmpty then st.Projects
          else .ofList (st.Projects.toList ++ l.map (fun proj =>
            { ID := TFString.known proj.ID, Name := TFString.known proj.Name,
              Environments :=
                if proj.Environments.toList.isEmpty then GoSlice.nil
                else .ofList (proj.Environments.toList.map (fun env =>
                  { ID := TFString.known env.ID, Name := TFString.known env.Name,
                    Slug := TFString.known env.Slug })) })) } := by
  induction l generalizing st with
  | nil => simp
  | cons a rest ih =>
    rw [List.foldl_cons, ih]
    simp only [foldl_environments]
    cases rest <;>
      simp [GoSlice.append, GoSlice.toList_nil, GoSlice.toList_ofList, StringValue]

/-- The projects state built by lines 187-205 from decoded `data`. -/
theorem projects_Read_ok (w : ProjectsWorld) (req : ReadRequest)
    (resp : ReadResponse ProjectsDataSourceModel) (res : HttpResponse)
    (data : WorkspacesResponse)
    (hfetch : w.GetApiV2OrganizationsOrganizationIdWorkspaces req.organizationId.ValueString
      = .ok res)
    (hdec : Decode w.unmarshal res.Body.data = .ok data) :
    ProjectsDataSource.Read w req resp =
      deferredClose res.Body (StateSet w.convert
        { resp with Diagnostics := Append resp.Diagnostics req.GetAttributeDiags }
        { ID := StringValue (FormatInt w.Now),
          OrganizationId := req.organizationId,
          Projects :=
            if data.Projects.toList.isEmpty then GoSlice.nil
            else .ofList (data.Projects.toList.map (fun proj =>
              { ID := TFString.known proj.ID, Name := TFString.known proj.Name,
                Environments :=
                  if proj.Environments.toList.isEmpty then GoSlice.nil
                  else .ofList (proj.Environments.toList.map (fun env =>
                    { ID := TFString.known env.ID, Name := TFString.known env.Name,
                      Slug := TFString.known env.Slug })) })) }) := by
  unfold ProjectsDataSource.Read
  simp only [hfetch, hdec, foldl_projects]
  simp [GoSlice.toList]

/-- C2: when the fetched workspaces body decodes into `data`, and the framework's
state conversion reports no error, the projects `Read` sets a state with one
project per source workspace, in source order, whose id and name are the
workspace's `_id` and `name` and whose environments are the source environments
in source order with id, name and slug equal to `_id`, `name` and `slug`. -/
theorem C2_projects_roundtrip (w : ProjectsWorld) (req : ReadRequest)
    (resp : ReadResponse ProjectsDataSourceModel) (res : HttpResponse)
    (data : WorkspacesResponse)
    (hfetch : w.GetApiV2OrganizationsOrganizationIdWorkspaces req.organizationId.ValueString
      = .ok res)
    (hdec : Decode w.unmarshal res.Body.data = .ok data)
    (hset : ∀ st, HasError (w.convert st) = false) :
    ∃ st, (ProjectsDataSource.Read w req resp).resp.State = some st ∧
      st.Projects.toList.length = data.Projects.toList.length ∧
      (∀ i : Nat,
        (st.Projects.toList[i]?).map
          (fun (p : ProjectsModel) => (p.ID, p.Name, p.Environments.toList)) =
        (data.Projects.toList[i]?).map
          (fun (r : WorkspaceRecord) => (TFString.known r.ID, TFString.known r.Name,
            r.Environments.toList.map (fun (e : EnvironmentReturn) =>
              ({ ID := TFString.known e.ID, Name := TFString.known e.Name,
                 Slug := TFString.known e.Slug } : ProjectEnvironmentModel))))) := by
  rw [projects_Read_ok w req resp res data hfetch hdec, deferredClose_State,
    StateSet_State _ _ _ (hset _)]
  refine ⟨_, rfl, ?_, ?_⟩
  · simp only [GoSlice.toList_nil_or_map, List.length_map]
  · intro i
    simp only [GoSlice.toList_nil_or_map, List.getElem?_map, Option.map_map]
    congr 1
    funext r
    simp only [Function.comp, GoSlice.toList_nil_or_map]

/-- Witness of C2: organization id `org1` and the one-project body of the
specification give `projects=[(p1, Proj, [(e1, dev, dev)])]`. -/
theorem C2_projects_roundtrip_witness :
    Decode Examples.projWorld.unmarshal Examples.projBody = .ok Examples.projData ∧
      (ProjectsDataSource.Read Examples.projWorld Examples.projRequest
          (ReadResponse.fresh _)).resp.State =
        some { ID := StringValue (FormatInt 1700000000),
               OrganizationId := .known "org1",
               Projects := .ofList
                 [{ ID := .known "p1", Name := .known "Proj",
                    Environments := .ofList
                      [{ ID := .known "e1", Name := .known "dev", Slug := .known "dev" }] }] } ∧
      ∃ st, (ProjectsDataSource.Read Examples.projWorld Examples.projRequest
          (ReadResponse.fresh _)).resp.State = some st ∧
        st.Projects.toList.length = Examples.projData.Projects.toList.length ∧
        (∀ i : Nat,
          (st.Projects.toList[i]?).map
            (fun (p : ProjectsModel) => (p.ID, p.Name, p.Environments.toList)) =
          (Examples.projData.Projects.toList[i]?).map
            (fun (r : WorkspaceRecord) => (TFString.known r.ID, TFString.known r.Name,
              r.Environments.toList.map (fun (e : EnvironmentReturn) =>
                ({ ID := TFString.known e.ID, Name := TFString.known e.Name,
                   Slug := TFString.known e.Slug } : ProjectEnvironmentModel))))) :=
  ⟨rfl, rfl,
    C2_projects_roundtrip Examples.projWorld Examples.projRequest (ReadResponse.fresh _)
      { Body := { data := Examples.projBody, closeErr := none } } Examples.projData rfl
      rfl (fun _ => rfl)⟩

end Infisical.datasource

namespace Infisical.provider
open Infisical

/-- C3: precedence explicit value > environment variable > built-in default.
For every explicit host and api_token (null or known) and every environment, the
resolved host is the explicit host when it is not null, otherwise `INFISICAL_HOST`
when that is non-empty, otherwise `https://infisical.com`; the resolved token is
the explicit api_token when it is not null, otherwise `INFISICAL_API_TOKEN`; and
`Configure` builds the security provider and the client from exactly these two
values. -/
theorem C3_precedence {π κ : Type} (w : ProviderWorld π κ) (host apiToken : Option String) :
    resolveHost w.Getenv ⟨TFString.ofOption host, TFString.ofOption apiToken⟩ =
        host.getD
          (if w.Getenv "INFISICAL_HOST" = "" then "https://infisical.com"
            else w.Getenv "INFISICAL_HOST") ∧
      resolveApiToken w.Getenv ⟨TFString.ofOption host, TFString.ofOption apiToken⟩ =
        apiToken.getD (w.Getenv "INFISICAL_API_TOKEN") ∧
      Configure w ⟨[], ⟨TFString.ofOption host, TFString.ofOption apiToken⟩⟩
          (ConfigureResponse.fresh κ) =
        (if apiToken.getD (w.Getenv "INFISICAL_API_TOKEN") = "" then
          .returned
            { Diagnostics :=
                [⟨Severity.Error, missingApiTokenSummary, missingApiTokenDetail, some "api_token"⟩],
              DataSourceData := none, ResourceData := none }
        else
          match w.NewSecurityProviderApiKey "header" "X-API-Key"
              (apiToken.getD (w.Getenv "INFISICAL_API_TOKEN")) with
          | .error e => .panicked e
          | .ok p =>
            match w.NewClient
                (host.getD
                  (if w.Getenv "INFISICAL_HOST" = "" then "https://infisical.com"
                    else w.Getenv "INFISICAL_HOST"))
                [.Intercept p, .customProvider] with
            | .error err =>
              .returned
                { Diagnostics := [⟨Severity.Error, clientErrorSummary, clientErrorDetail err, none⟩],
                  DataSourceData := none, ResourceData := none }
            | .ok c =>
              .returned { Diagnostics := [], DataSourceData := some c, ResourceData := some c }) := by
  have hH : resolveHost w.Getenv ⟨TFString.ofOption host, TFString.ofOption apiToken⟩ =
        host.getD
          (if w.Getenv "INFISICAL_HOST" = "" then "https://infisical.com"
            else w.Getenv "INFISICAL_HOST") := by
    cases host <;> simp [resolveHost, TFString.ofOption, TFString.IsNull, TFString.ValueString]
  have hT : resolveApiToken w.Getenv ⟨TFString.ofOption host, TFString.ofOption apiToken⟩ =
        apiToken.getD (w.Getenv "INFISICAL_API_TOKEN") := by
    cases apiToken <;>
      simp [resolveApiToken, TFString.ofOption, TFString.IsNull, TFString.ValueString]
  refine ⟨hH, hT, ?_⟩
  have hU : (TFString.ofOption apiToken).IsUnknown = false := by
    cases apiToken <;> rfl
  unfold Configure
  simp only [hH, hT, hU, ConfigureResponse.fresh, Append_nil]
  by_cases htok : apiToken.getD (w.Getenv "INFISICAL_API_TOKEN") = ""
  · simp [htok, HasError, AddAttributeError, Append]
  · simp only [htok, if_false, beq_iff_eq]
    cases hP : w.NewSecurityProviderApiKey "header" "X-API-Key"
              (apiToken.getD (w.Getenv "INFISICAL_API_TOKEN")) with
    | error e => simp [HasError]
    | ok p =>
      cases hC : w.NewClient
                (host.getD
                  (if w.Getenv "INFISICAL_HOST" = "" then "https://infisical.com"
                    else w.Getenv "INFISICAL_HOST"))
                [.Intercept p, .customProvider] with
      | error err => simp [HasError, AddError, Append, hC]
      | ok c => simp [HasError, hC]

end Infisical.provider

namespace Infisical

theorem HasError_AddAttributeError (ds : Diagnostics) (root summary detail : String) :
    HasError (AddAttributeError ds root summary detail) = true := by
  rw [AddAttributeError, HasError_Append, Bool.or_eq_true]
  exact Or.inr rfl

theorem HasError_AddError (ds : Diagnostics) (summary detail : String) :
    HasError (AddError ds summary detail) = true := by
  rw [AddError, HasError_Append, Bool.or_eq_true]
  exact Or.inr rfl

theorem mem_AddAttributeError (ds : Diagnostics) (root summary detail : String) (x : Diagnostic) :
    x ∈ AddAttributeError ds root summary detail ↔
      x ∈ ds ∨ x = ⟨Severity.Error, summary, detail, some root⟩ := by
  simp [AddAttributeError, mem_Append]

theorem mem_AddError (ds : Diagnostics) (summary detail : String) (x : Diagnostic) :
    x ∈ AddError ds summary detail ↔ x ∈ ds ∨ x = ⟨Severity.Error, summary, detail, none⟩ := by
  simp [AddError, mem_Append]

end Infisical

namespace Infisical.provider
open Infisical

/-- C4: let the configuration be readable without error. If the token resolved
after all precedence layers is the empty string, `Configure` returns with an error
diagnostic attached to the `api_token` path, leaves `DataSourceData` and
`ResourceData` as they were (no client), and its result does not depend on the
client constructors (none is called). Conversely, if the resolved token is
non-empty and the token is not unknown, every diagnostic with the missing-token
summary in the result was already in the input diagnostics. -/
theorem C4_missing_token {π κ : Type} (w : ProviderWorld π κ) (req : ConfigureRequest)
    (resp : ConfigureResponse κ)
    (hget : HasError (Append resp.Diagnostics req.GetDiags) = false) :
    (resolveApiToken w.Getenv req.Config = "" →
      (∃ r, Configure w req resp = .returned r ∧
        (∃ d ∈ r.Diagnostics, d.severity = Severity.Error ∧ d.path = some "api_token") ∧
        r.DataSourceData = resp.DataSourceData ∧ r.ResourceData = resp.ResourceData) ∧
      ∀ w2 : ProviderWorld π κ, w2.Getenv = w.Getenv →
        Configure w2 req resp = Configure w req resp) ∧
    (resolveApiToken w.Getenv req.Config ≠ "" → req.Config.ApiToken.IsUnknown = false →
      ∀ r, Configure w req resp = .returned r →
        ∀ d ∈ r.Diagnostics, d.summary = missingApiTokenSummary →
          d ∈ resp.Diagnostics ∨ d ∈ req.GetDiags) := by
  constructor
  · intro htok
    have key : ∀ w2 : ProviderWorld π κ, w2.Getenv = w.Getenv →
        Configure w2 req resp = .returned
          { resp with Diagnostics :=
                        AddAttributeError (Append resp.Diagnostics req.GetDiags) "api_token"
                          (if req.Config.ApiToken.IsUnknown then unknownApiTokenSummary
                            else missingApiTokenSummary)
                          (if req.Config.ApiToken.IsUnknown then unknownApiTokenDetail
                            else missingApiTokenDetail) } := by
      intro w2 hw2
      unfold Configure
      simp only [hget, hw2, htok]
      by_cases hU : req.Config.ApiToken.IsUnknown = true
      · simp [hU, HasError_AddAttributeError]
      · simp [hU, hget, HasError_AddAttributeError]
    refine ⟨⟨_, key w rfl, ?_, rfl, rfl⟩, ?_⟩
    · exact ⟨_, (mem_AddAttributeError _ _ _ _ _).2 (Or.inr rfl), rfl, rfl⟩
    · intro w2 hw2
      rw [key w rfl, key w2 hw2]
  · intro htok hU r hr d hd hsum
    unfold Configure at hr
    simp only [hget, hU, htok, beq_iff_eq] at hr
    simp only [Bool.false_eq_true, if_false, hget] at hr
    cases hP : w.NewSecurityProviderApiKey "header" "X-API-Key"
        (resolveApiToken w.Getenv req.Config) with
    | error e => simp [hP] at hr
    | ok p =>
      simp only [hP] at hr
      cases hC : w.NewClient (resolveHost w.Getenv req.Config)
          [.Intercept p, .customProvider] with
      | error err =>
        simp only [hC, Outcome.returned.injEq] at hr
        subst hr
        rcases (mem_AddError _ _ _ _).1 hd with h1 | h1
        · exact (mem_Append _ _ _).1 h1
        · subst h1
          have hne : clientErrorSummary ≠ missingApiTokenSummary := by decide
          exact absurd hsum hne
      | ok c =>
        simp only [hC, Outcome.returned.injEq] at hr
        subst hr
        exact (mem_Append _ _ _).1 hd

/-- Witness of C4: with no token anywhere the result is the missing-token
diagnostic and no client; with `INFISICAL_API_TOKEN` set a client is returned and
no diagnostic. -/
theorem C4_missing_token_witness :
    HasError (Append (ConfigureResponse.fresh String).Diagnostics Examples.nullRequest.GetDiags)
        = false ∧
      resolveApiToken Examples.emptyEnvWorld.Getenv Examples.nullRequest.Config = "" ∧
      ((∃ r, Configure Examples.emptyEnvWorld Examples.nullRequest (ConfigureResponse.fresh String)
            = .returned r ∧
          (∃ d ∈ r.Diagnostics, d.severity = Severity.Error ∧ d.path = some "api_token") ∧
          r.DataSourceData = (ConfigureResponse.fresh String).DataSourceData ∧
          r.ResourceData = (ConfigureResponse.fresh String).ResourceData) ∧
        ∀ w2 : ProviderWorld String String, w2.Getenv = Examples.emptyEnvWorld.Getenv →
          Configure w2 Examples.nullRequest (ConfigureResponse.fresh String) =
            Configure Examples.emptyEnvWorld Examples.nullRequest (ConfigureResponse.fresh String)) ∧
      Configure Examples.tokenEnvWorld Examples.nullRequest (ConfigureResponse.fresh String) =
        .returned { Diagnostics := [], DataSourceData := some "https://infisical.com",
                    ResourceData := some "https://infisical.com" } ∧
      (∀ r, Configure Examples.tokenEnvWorld Examples.nullRequest (ConfigureResponse.fresh String)
          = .returned r →
        ∀ d ∈ r.Diagnostics, d.summary = missingApiTokenSummary →
          d ∈ (ConfigureResponse.fresh String).Diagnostics ∨ d ∈ Examples.nullRequest.GetDiags) :=
  ⟨rfl, rfl,
    (C4_missing_token Examples.emptyEnvWorld Examples.nullRequest (ConfigureResponse.fresh String)
      rfl).1 rfl,
    rfl,
    (C4_missing_token Examples.tokenEnvWorld Examples.nullRequest (ConfigureResponse.fresh String)
      rfl).2 (by decide) rfl⟩

end Infisical.provider

namespace Infisical.provider
open Infisical

/-- C5 (code at the failing input): with `host` unknown and `api_token` known,
`Configure` adds no unknown-value diagnostic; it resolves the host to the empty
string and goes on to build the security provider and the client, in every
world. -/
theorem C5_unknown_host_not_rejected {π κ : Type} (w : ProviderWorld π κ) :
    Examples.unknownHostRequest.Config.Host.IsUnknown = true ∧
      resolveHost w.Getenv Examples.unknownHostRequest.Config = "" ∧
      Configure w Examples.unknownHostRequest (ConfigureResponse.fresh κ) =
        (match w.NewSecurityProviderApiKey "header" "X-API-Key" "ak.token" with
          | .error e => .panicked e
          | .ok p =>
            match w.NewClient "" [.Intercept p, .customProvider] with
            | .error err =>
              .returned
                { Diagnostics := [⟨Severity.Error, clientErrorSummary, clientErrorDetail err, none⟩],
                  DataSourceData := none, ResourceData := none }
            | .ok c =>
              .returned { Diagnostics := [], DataSourceData := some c, ResourceData := some c }) := by
  refine ⟨rfl, rfl, ?_⟩
  unfold Configure
  cases hP : w.NewSecurityProviderApiKey "header" "X-API-Key" "ak.token" with
  | error e =>
    simp [Examples.unknownHostRequest, ConfigureResponse.fresh, Append_nil, HasError,
      TFString.IsUnknown, resolveApiToken, TFString.IsNull, TFString.ValueString, hP]
  | ok p =>
    cases hC : w.NewClient "" [.Intercept p, .customProvider] with
    | error err =>
      simp [Examples.unknownHostRequest, ConfigureResponse.fresh, Append_nil, HasError,
        TFString.IsUnknown, resolveApiToken, resolveHost, TFString.IsNull, TFString.ValueString,
        hP, hC, AddError, Append]
    | ok c =>
      simp [Examples.unknownHostRequest, ConfigureResponse.fresh, Append_nil, HasError,
        TFString.IsUnknown, resolveApiToken, resolveHost, TFString.IsNull, TFString.ValueString,
        hP, hC]

end Infisical.provider

namespace Infisical.datasource
open Infisical

theorem Decode_empty {α : Type} (unmarshal : String → Except String α) :
    Decode unmarshal "" = .error GoError.EOF := rfl

theorem mem_deferredClose {σ : Type} (body : Body) (resp : ReadResponse σ) (d : Diagnostic) :
    d ∈ (deferredClose body resp).resp.Diagnostics ↔
      d ∈ resp.Diagnostics ∨
      ∃ e, body.closeErr = some e ∧
        d = ⟨Severity.Error, "Unable to close body reader for User", e, none⟩ := by
  unfold deferredClose
  cases h : body.closeErr with
  | none => simp
  | some e => simp [mem_AddError]

theorem StateSet_Diagnostics {σ : Type} (convert : σ → Diagnostics) (resp : ReadResponse σ)
    (state : σ) : (StateSet convert resp state).Diagnostics = Append resp.Diagnostics (convert state) :=
  rfl

/-- The organizations read when the decoder reports `io.EOF`: the zero-valued
`data` is projected and handed to `State.Set`. -/
theorem organizations_Read_eof (w : OrganizationsWorld)
    (resp : ReadResponse OrganizationsDataSourceModel) (res : HttpResponse)
    (hfetch : w.GetApiV2UsersMeOrganizations = .ok res)
    (hdec : Decode w.unmarshal res.Body.data = .error GoError.EOF) :
    OrganizationsDataSource.Read w resp =
      deferredClose res.Body (StateSet w.convert resp
        { Organizations := GoSlice.nil, ID := StringValue (FormatInt w.Now) }) := by
  unfold OrganizationsDataSource.Read
  simp only [hfetch, hdec]
  rfl

/-- The projects read when the decoder reports `io.EOF`. -/
theorem projects_Read_eof (w : ProjectsWorld) (req : ReadRequest)
    (resp : ReadResponse ProjectsDataSourceModel) (res : HttpResponse)
    (hfetch : w.GetApiV2OrganizationsOrganizationIdWorkspaces req.organizationId.ValueString
      = .ok res)
    (hdec : Decode w.unmarshal res.Body.data = .error GoError.EOF) :
    ProjectsDataSource.Read w req resp =
      deferredClose res.Body (StateSet w.convert
        { resp with Diagnostics := Append resp.Diagnostics req.GetAttributeDiags }
        { ID := StringValue (FormatInt w.Now), OrganizationId := req.organizationId,
          Projects := GoSlice.nil }) := by
  unfold ProjectsDataSource.Read
  simp only [hfetch, hdec]
  rfl

/-- C6: when the fetch succeeded with a zero-length body, decoding reports
`io.EOF` and leaves the record collection empty, neither read adds a decode
diagnostic, and (the framework accepting the value) the state is set to the
projection of the empty collection. -/
theorem C6_empty_body (wo : OrganizationsWorld) (wp : ProjectsWorld) (req : ReadRequest)
    (ro : ReadResponse OrganizationsDataSourceModel) (rp : ReadResponse ProjectsDataSourceModel)
    (resO resP : HttpResponse)
    (hfo : wo.GetApiV2UsersMeOrganizations = .ok resO) (hbo : resO.Body.data = "")
    (hfp : wp.GetApiV2OrganizationsOrganizationIdWorkspaces req.organizationId.ValueString
      = .ok resP)
    (hbp : resP.Body.data = "")
    (hso : ∀ st, HasError (wo.convert st) = false)
    (hsp : ∀ st, HasError (wp.convert st) = false) :
    (Decode wo.unmarshal resO.Body.data = .error GoError.EOF ∧
      (OrganizationsDataSource.Read wo ro).resp.State =
        some { Organizations := GoSlice.nil, ID := StringValue (FormatInt wo.Now) } ∧
      ∀ d ∈ (OrganizationsDataSource.Read wo ro).resp.Diagnostics,
        d.summary = "Unable to Decode Infisical Organizations for User" →
          d ∈ ro.Diagnostics ∨
          d ∈ wo.convert { Organizations := GoSlice.nil, ID := StringValue (FormatInt wo.Now) }) ∧
    (Decode wp.unmarshal resP.Body.data = .error GoError.EOF ∧
      (ProjectsDataSource.Read wp req rp).resp.State =
        some { ID := StringValue (FormatInt wp.Now), OrganizationId := req.organizationId,
               Projects := GoSlice.nil } ∧
      ∀ d ∈ (ProjectsDataSource.Read wp req rp).resp.Diagnostics,
        d.summary = "Unable to Decode Infisical Projects for User" →
          d ∈ rp.Diagnostics ∨ d ∈ req.GetAttributeDiags ∨
          d ∈ wp.convert { ID := StringValue (FormatInt wp.Now),
                           OrganizationId := req.organizationId, Projects := GoSlice.nil }) := by
  have hdo : Decode wo.unmarshal resO.Body.data = .error GoError.EOF := by
    rw [hbo]; exact Decode_empty _
  have hdp : Decode wp.unmarshal resP.Body.data = .error GoError.EOF := by
    rw [hbp]; exact Decode_empty _
  refine ⟨⟨hdo, ?_, ?_⟩, ⟨hdp, ?_, ?_⟩⟩
  · rw [organizations_Read_eof wo ro resO hfo hdo, deferredClose_State]
    exact StateSet_State _ _ _ (hso _)
  · intro d hd hsum
    rw [organizations_Read_eof wo ro resO hfo hdo, mem_deferredClose, StateSet_Diagnostics,
      mem_Append] at hd
    rcases hd with hd | ⟨e, _, he⟩
    · exact hd
    · subst he
      have hne : "Unable to close body reader for User" ≠
          "Unable to Decode Infisical Organizations for User" := by decide
      exact absurd hsum hne
  · rw [projects_Read_eof wp req rp resP hfp hdp, deferredClose_State]
    exact StateSet_State _ _ _ (hsp _)
  · intro d hd hsum
    rw [projects_Read_eof wp req rp resP hfp hdp, mem_deferredClose, StateSet_Diagnostics,
      mem_Append, mem_Append] at hd
    rcases hd with ((hd | hd) | hd) | ⟨e, _, he⟩
    · exact Or.inl hd
    · exact Or.inr (Or.inl hd)
    · exact Or.inr (Or.inr hd)
    · subst he
      have hne : "Unable to close body reader for User" ≠
          "Unable to Decode Infisical Projects for User" := by decide
      exact absurd hsum hne

end Infisical.datasource

namespace Infisical.datasource
open Infisical

/-- Witness of C6 on worlds whose fetches succeed with a zero-length body. -/
theorem C6_empty_body_witness :
    Examples.emptyBodyWorld.GetApiV2UsersMeOrganizations
        = .ok { Body := { data := "", closeErr := none } } ∧
      (OrganizationsDataSource.Read Examples.emptyBodyWorld (ReadResponse.fresh _)).resp =
        { State := some { Organizations := GoSlice.nil,
                          ID := StringValue (FormatInt 1700000000) },
          Diagnostics := [] } ∧
      (OrganizationsDataSource.Read Examples.emptyBodyWorld (ReadResponse.fresh _)).resp.State =
        some { Organizations := GoSlice.nil,
               ID := StringValue (FormatInt Examples.emptyBodyWorld.Now) } ∧
      (ProjectsDataSource.Read Examples.emptyBodyProjectsWorld Examples.projRequest
          (ReadResponse.fresh _)).resp.State =
        some { ID := StringValue (FormatInt Examples.emptyBodyProjectsWorld.Now),
               OrganizationId := Examples.projRequest.organizationId,
               Projects := GoSlice.nil } :=
  ⟨rfl, rfl,
    (C6_empty_body Examples.emptyBodyWorld Examples.emptyBodyProjectsWorld Examples.projRequest
      (ReadResponse.fresh _) (ReadResponse.fresh _)
      { Body := { data := "", closeErr := none } } { Body := { data := "", closeErr := none } }
      rfl rfl rfl rfl (fun _ => rfl) (fun _ => rfl)).1.2.1,
    (C6_empty_body Examples.emptyBodyWorld Examples.emptyBodyProjectsWorld Examples.projRequest
      (ReadResponse.fresh _) (ReadResponse.fresh _)
      { Body := { data := "", closeErr := none } } { Body := { data := "", closeErr := none } }
      rfl rfl rfl rfl (fun _ => rfl) (fun _ => rfl)).2.2.1⟩

/-- The reads when decoding fails with an error that is not `io.EOF`. -/
theorem organizations_Read_decode_error (w : OrganizationsWorld)
    (resp : ReadResponse OrganizationsDataSourceModel) (res : HttpResponse) (msg : String)
    (hfetch : w.GetApiV2UsersMeOrganizations = .ok res)
    (hdec : Decode w.unmarshal res.Body.data = .error (GoError.other msg)) :
    OrganizationsDataSource.Read w resp =
      deferredClose res.Body
        { resp with Diagnostics :=
                      AddError resp.Diagnostics
                        "Unable to Decode Infisical Organizations for User" msg } := by
  unfold OrganizationsDataSource.Read
  simp only [hfetch, hdec]

/-- The projects read when decoding fails with an error that is not `io.EOF`. -/
theorem projects_Read_decode_error (w : ProjectsWorld) (req : ReadRequest)
    (resp : ReadResponse ProjectsDataSourceModel) (res : HttpResponse) (msg : String)
    (hfetch : w.GetApiV2OrganizationsOrganizationIdWorkspaces req.organizationId.ValueString
      = .ok res)
    (hdec : Decode w.unmarshal res.Body.data = .error (GoError.other msg)) :
    ProjectsDataSource.Read w req resp =
      deferredClose res.Body
        { resp with Diagnostics :=
                      AddError (Append resp.Diagnostics req.GetAttributeDiags)
                        "Unable to Decode Infisical Projects for User" msg } := by
  unfold ProjectsDataSource.Read
  simp only [hfetch, hdec]

/-- C7 (counterexample): a body holding a single space is non-empty and does not
decode into records, yet the organizations `Read` adds no diagnostic and sets the
state. -/
theorem C7_blank_body_counterexample :
    Examples.blankBodyWorld.GetApiV2UsersMeOrganizations
        = .ok { Body := { data := " ", closeErr := none } } ∧
      (" " : String) ≠ "" ∧
      (∀ data, Decode Examples.blankBodyWorld.unmarshal " " ≠ .ok data) ∧
      (OrganizationsDataSource.Read Examples.blankBodyWorld (ReadResponse.fresh _)).resp =
        { State := some { Organizations := GoSlice.nil,
                          ID := StringValue (FormatInt 1700000000) },
          Diagnostics := [] } := by
  refine ⟨rfl, by decide, ?_, rfl⟩
  intro data h
  have h2 : Decode Examples.blankBodyWorld.unmarshal " " = .error GoError.EOF := rfl
  rw [h2] at h
  cases h

/-- C7 (amended): when decoding the fetched body fails with an error other than
`io.EOF`, the organizations `Read` and the projects `Read` each add an error
diagnostic with the decode summary and the failure's message, and leave the state
as it was. -/
theorem C7_decode_error (wo : OrganizationsWorld) (wp : ProjectsWorld) (req : ReadRequest)
    (ro : ReadResponse OrganizationsDataSourceModel) (rp : ReadResponse ProjectsDataSourceModel)
    (resO resP : HttpResponse) (msgO msgP : String)
    (hfo : wo.GetApiV2UsersMeOrganizations = .ok resO)
    (hdo : Decode wo.unmarshal resO.Body.data = .error (GoError.other msgO))
    (hfp : wp.GetApiV2OrganizationsOrganizationIdWorkspaces req.organizationId.ValueString
      = .ok resP)
    (hdp : Decode wp.unmarshal resP.Body.data = .error (GoError.other msgP)) :
    ((OrganizationsDataSource.Read wo ro).resp.State = ro.State ∧
      (⟨Severity.Error, "Unable to Decode Infisical Organizations for User", msgO, none⟩ :
        Diagnostic) ∈ (OrganizationsDataSource.Read wo ro).resp.Diagnostics) ∧
    ((ProjectsDataSource.Read wp req rp).resp.State = rp.State ∧
      (⟨Severity.Error, "Unable to Decode Infisical Projects for User", msgP, none⟩ :
        Diagnostic) ∈ (ProjectsDataSource.Read wp req rp).resp.Diagnostics) := by
  rw [organizations_Read_decode_error wo ro resO msgO hfo hdo,
    projects_Read_decode_error wp req rp resP msgP hfp hdp]
  refine ⟨⟨deferredClose_State _ _, ?_⟩, ⟨deferredClose_State _ _, ?_⟩⟩
  · exact (mem_deferredClose _ _ _).2 (Or.inl ((mem_AddError _ _ _ _).2 (Or.inr rfl)))
  · exact (mem_deferredClose _ _ _).2 (Or.inl ((mem_AddError _ _ _ _).2 (Or.inr rfl)))

/-- Witness of C7 (amended) on bodies that are not JSON. -/
theorem C7_decode_error_witness :
    Decode Examples.malformedBodyWorld.unmarshal "<html>" =
        .error (GoError.other "invalid character at the beginning of value") ∧
      (OrganizationsDataSource.Read Examples.malformedBodyWorld (ReadResponse.fresh _)).resp =
        { State := none,
          Diagnostics := [⟨Severity.Error, "Unable to Decode Infisical Organizations for User",
            "invalid character at the beginning of value", none⟩] } ∧
      (((OrganizationsDataSource.Read Examples.malformedBodyWorld (ReadResponse.fresh _)).resp.State
          = (ReadResponse.fresh _).State ∧
        (⟨Severity.Error, "Unable to Decode Infisical Organizations for User",
            "invalid character at the beginning of value", none⟩ : Diagnostic) ∈
          (OrganizationsDataSource.Read Examples.malformedBodyWorld
            (ReadResponse.fresh _)).resp.Diagnostics) ∧
      ((ProjectsDataSource.Read Examples.malformedBodyProjectsWorld Examples.projRequest
            (ReadResponse.fresh _)).resp.State = (ReadResponse.fresh _).State ∧
        (⟨Severity.Error, "Unable to Decode Infisical Projects for User",
            "invalid character at the beginning of value", none⟩ : Diagnostic) ∈
          (ProjectsDataSource.Read Examples.malformedBodyProjectsWorld Examples.projRequest
            (ReadResponse.fresh _)).resp.Diagnostics)) :=
  ⟨rfl, rfl,
    C7_decode_error Examples.malformedBodyWorld Examples.malformedBodyProjectsWorld
      Examples.projRequest (ReadResponse.fresh _) (ReadResponse.fresh _)
      { Body := { data := "<html>", closeErr := none } }
      { Body := { data := "<html>", closeErr := none } }
      "invalid character at the beginning of value"
      "invalid character at the beginning of value" rfl rfl rfl rfl⟩

end Infisical.datasource

namespace Infisical.datasource
open Infisical

/-- C8: in every projects read that reaches projection (the fetch keyed by the
configured organization id succeeded and decoding did not fail), the state that
is set carries the `organization_id` read from the configuration, unchanged,
whatever the response holds; and the read consults the fetch only at that key. -/
theorem C8_organization_id_carried (w : ProjectsWorld) (req : ReadRequest)
    (resp : ReadResponse ProjectsDataSourceModel) (res : HttpResponse)
    (hfetch : w.GetApiV2OrganizationsOrganizationIdWorkspaces req.organizationId.ValueString
      = .ok res)
    (hdec : ∀ msg, Decode w.unmarshal res.Body.data ≠ .error (GoError.other msg))
    (hset : ∀ st, HasError (w.convert st) = false) :
    (∃ st, (ProjectsDataSource.Read w req resp).resp.State = some st ∧
      st.OrganizationId = req.organizationId) ∧
    ∀ fetch : String → Except String HttpResponse,
      fetch req.organizationId.ValueString = .ok res →
      ProjectsDataSource.Read
          { w with GetApiV2OrganizationsOrganizationIdWorkspaces := fetch } req resp =
        ProjectsDataSource.Read w req resp := by
  constructor
  · cases hd : Decode w.unmarshal res.Body.data with
    | ok data =>
      rw [projects_Read_ok w req resp res data hfetch hd, deferredClose_State,
        StateSet_State _ _ _ (hset _)]
      exact ⟨_, rfl, rfl⟩
    | error e =>
      cases e with
      | EOF =>
        rw [projects_Read_eof w req resp res hfetch hd, deferredClose_State,
          StateSet_State _ _ _ (hset _)]
        exact ⟨_, rfl, rfl⟩
      | other msg => exact absurd hd (hdec msg)
  · intro fetch hf
    unfold ProjectsDataSource.Read
    simp only [hf, hfetch]

/-- Witness of C8: the response names `org2`, the configuration says `org1`, and
the state carries `org1`. -/
theorem C8_organization_id_carried_witness :
    Examples.foreignOrgWorld.GetApiV2OrganizationsOrganizationIdWorkspaces
        Examples.projRequest.organizationId.ValueString
        = .ok { Body := { data := "[p1]", closeErr := none } } ∧
      (ProjectsDataSource.Read Examples.foreignOrgWorld Examples.projRequest
          (ReadResponse.fresh _)).resp.State =
        some { ID := StringValue (FormatInt 1700000000),
               OrganizationId := .known "org1",
               Projects := .ofList
                 [{ ID := .known "p1", Name := .known "Proj", Environments := .nil }] } ∧
      ∃ st, (ProjectsDataSource.Read Examples.foreignOrgWorld Examples.projRequest
          (ReadResponse.fresh _)).resp.State = some st ∧
        st.OrganizationId = Examples.projRequest.organizationId :=
  ⟨rfl, rfl,
    (C8_organization_id_carried Examples.foreignOrgWorld Examples.projRequest
      (ReadResponse.fresh _) { Body := { data := "[p1]", closeErr := none } } rfl
      (fun _ h => Except.noConfusion
        ((rfl : Decode Examples.foreignOrgWorld.unmarshal "[p1]"
          = .ok Examples.foreignOrgData).symm.trans h))
      (fun _ => rfl)).1⟩

end Infisical.datasource

namespace Infisical.datasource
open Infisical

/-- C9 (code at the failing input): reading `organization_id` raises an error
diagnostic, yet the projects `Read` fetches with the empty key, projects the
response and sets the state; the result holds both the error and the state. -/
theorem C9_attribute_error_not_aborting :
    HasError Examples.failingAttributeRequest.GetAttributeDiags = true ∧
      (ProjectsDataSource.Read Examples.anyKeyWorld Examples.failingAttributeRequest
          (ReadResponse.fresh _)).resp =
        { State := some
            { ID := StringValue (FormatInt 1700000000),
              OrganizationId := .null,
              Projects := .ofList
                [{ ID := .known "p1", Name := .known "Proj",
                   Environments := .ofList
                     [{ ID := .known "e1", Name := .known "dev", Slug := .known "dev" }] }] },
          Diagnostics := [Examples.attributeError] } :=
  ⟨rfl, rfl⟩

end Infisical.datasource

namespace Infisical.provider
open Infisical

/-- C10 (counterexample): when building the security provider fails, `Configure`
of the canonical provider and of the legacy provider both panic with the error;
neither returns a response with a diagnostic. -/
theorem C10_panic_counterexample :
    Configure Examples.failingKeyWorld Examples.knownRequest (ConfigureResponse.fresh String)
        = .panicked "security provider cannot be built" ∧
      infisical.Configure Examples.failingKeyWorld Examples.knownLegacyRequest
          (ConfigureResponse.fresh String)
        = .panicked "security provider cannot be built" :=
  ⟨rfl, rfl⟩

/-- C10 (amended): with a readable configuration and a known, non-empty resolved
token, a failure to build the security provider makes `Configure` of the
canonical and of the legacy provider panic with that error (no diagnostic, no
client); a failure of the client constructor is reported as an error diagnostic
and `Configure` returns with `DataSourceData` and `ResourceData` untouched. -/
theorem C10_construction_failure {π κ : Type} (w : ProviderWorld π κ)
    (req : ConfigureRequest) (lreq : infisical.ConfigureRequest) (resp : ConfigureResponse κ)
    (hget : HasError (Append resp.Diagnostics req.GetDiags) = false)
    (hlget : HasError (Append resp.Diagnostics lreq.GetDiags) = false)
    (hU : req.Config.ApiToken.IsUnknown = false)
    (hlU : lreq.Config.ApiKey.IsUnknown = false)
    (htok : resolveApiToken w.Getenv req.Config ≠ "")
    (hkey : infisical.resolveApiKey w.Getenv lreq.Config ≠ "") :
    (∀ e, w.NewSecurityProviderApiKey "header" "X-API-Key"
          (resolveApiToken w.Getenv req.Config) = .error e →
        Configure w req resp = .panicked e) ∧
    (∀ e, w.NewSecurityProviderApiKey "header" "X-API-Key"
          (infisical.resolveApiKey w.Getenv lreq.Config) = .error e →
        infisical.Configure w lreq resp = .panicked e) ∧
    (∀ p err, w.NewSecurityProviderApiKey "header" "X-API-Key"
          (resolveApiToken w.Getenv req.Config) = .ok p →
        w.NewClient (resolveHost w.Getenv req.Config) [.Intercept p, .customProvider]
          = .error err →
        Configure w req resp = .returned
          { Diagnostics := AddError (Append resp.Diagnostics req.GetDiags) clientErrorSummary
              (clientErrorDetail err),
            DataSourceData := resp.DataSourceData, ResourceData := resp.ResourceData }) ∧
    (∀ p err, w.NewSecurityProviderApiKey "header" "X-API-Key"
          (infisical.resolveApiKey w.Getenv lreq.Config) = .ok p →
        w.NewClient (infisical.resolveHost w.Getenv lreq.Config) [.Intercept p] = .error err →
        infisical.Configure w lreq resp = .returned
          { Diagnostics := AddError (Append resp.Diagnostics lreq.GetDiags) clientErrorSummary
              (clientErrorDetail err),
            DataSourceData := resp.DataSourceData, ResourceData := resp.ResourceData }) := by
  refine ⟨?_, ?_, ?_, ?_⟩
  · intro e he
    unfold Configure
    simp [hget, hU, htok, he]
  · intro e he
    unfold infisical.Configure
    simp [hlget, hlU, hkey, he]
  · intro p err hp hc
    unfold Configure
    simp [hget, hU, htok, hp, hc]
  · intro p err hp hc
    unfold infisical.Configure
    simp [hlget, hlU, hkey, hp, hc]

/-- Witness of C10 (amended): the panic in a world whose security-provider
constructor fails, and the diagnostic in a world whose client constructor fails. -/
theorem C10_construction_failure_witness :
    resolveApiToken Examples.failingKeyWorld.Getenv Examples.knownRequest.Config = "ak.token" ∧
      Configure Examples.failingKeyWorld Examples.knownRequest (ConfigureResponse.fresh String)
        = .panicked "security provider cannot be built" ∧
      infisical.Configure Examples.failingKeyWorld Examples.knownLegacyRequest
          (ConfigureResponse.fresh String)
        = .panicked "security provider cannot be built" ∧
      Configure Examples.failingClientWorld Examples.knownRequest (ConfigureResponse.fresh String)
        = .returned
          { Diagnostics := AddError
              (Append (ConfigureResponse.fresh String).Diagnostics Examples.knownRequest.GetDiags)
              clientErrorSummary (clientErrorDetail "parse error"),
            DataSourceData := (ConfigureResponse.fresh String).DataSourceData,
            ResourceData := (ConfigureResponse.fresh String).ResourceData } ∧
      infisical.Configure Examples.failingClientWorld Examples.knownLegacyRequest
          (ConfigureResponse.fresh String)
        = .returned
          { Diagnostics := AddError
              (Append (ConfigureResponse.fresh String).Diagnostics
                Examples.knownLegacyRequest.GetDiags)
              clientErrorSummary (clientErrorDetail "parse error"),
            DataSourceData := (ConfigureResponse.fresh String).DataSourceData,
            ResourceData := (ConfigureResponse.fresh String).ResourceData } :=
  ⟨rfl,
    (C10_construction_failure Examples.failingKeyWorld Examples.knownRequest
      Examples.knownLegacyRequest (ConfigureResponse.fresh String) rfl rfl rfl rfl
      (by decide) (by decide)).1 _ rfl,
    (C10_construction_failure Examples.failingKeyWorld Examples.knownRequest
      Examples.knownLegacyRequest (ConfigureResponse.fresh String) rfl rfl rfl rfl
      (by decide) (by decide)).2.1 _ rfl,
    (C10_construction_failure Examples.failingClientWorld Examples.knownRequest
      Examples.knownLegacyRequest (ConfigureResponse.fresh String) rfl rfl rfl rfl
      (by decide) (by decide)).2.2.1 _ _ rfl rfl,
    (C10_construction_failure Examples.failingClientWorld Examples.knownRequest
      Examples.knownLegacyRequest (ConfigureResponse.fresh String) rfl rfl rfl rfl
      (by decide) (by decide)).2.2.2 _ _ rfl rfl⟩

end Infisical.provider

namespace Infisical.datasource
open Infisical

/-- C11 (counterexample): for an empty body, and for a body whose array is
empty, the reads set a state whose `organizations` (`projects`) field is the nil
slice, stored as a null list and not as an empty sequence. -/
theorem C11_nil_slice_counterexample :
    (OrganizationsDataSource.Read Examples.emptyBodyWorld (ReadResponse.fresh _)).resp.State =
        some { Organizations := GoSlice.nil, ID := .known (FormatInt 1700000000) } ∧
      (OrganizationsDataSource.Read Examples.emptyArrayWorld (ReadResponse.fresh _)).resp.State =
        some { Organizations := GoSlice.nil, ID := .known (FormatInt 1700000000) } ∧
      (ProjectsDataSource.Read Examples.emptyArrayProjectsWorld Examples.projRequest
          (ReadResponse.fresh _)).resp.State =
        some { ID := .known (FormatInt 1700000000), OrganizationId := .known "org1",
               Projects := GoSlice.nil } ∧
      FromSlice (GoSlice.nil : GoSlice OrganizationsModel) = TFList.null ∧
      FromSlice (GoSlice.nil : GoSlice OrganizationsModel) ≠ TFList.known [] :=
  ⟨rfl, rfl, rfl, rfl, by decide⟩

/-- C11 (amended): when the projection receives no records (the decoder reported
`io.EOF`, or the decoded collection is empty) and the framework accepts the
value, both reads set a state whose id is the known timestamp string and whose
`organizations` (`projects`) field is the nil slice, which is stored as a null
list. -/
theorem C11_empty_collection (wo : OrganizationsWorld) (wp : ProjectsWorld) (req : ReadRequest)
    (ro : ReadResponse OrganizationsDataSourceModel) (rp : ReadResponse ProjectsDataSourceModel)
    (resO resP : HttpResponse)
    (hfo : wo.GetApiV2UsersMeOrganizations = .ok resO)
    (hdo : ∀ msg, Decode wo.unmarshal resO.Body.data ≠ .error (GoError.other msg))
    (heo : ∀ data, Decode wo.unmarshal resO.Body.data = .ok data →
      data.Organizations.toList = [])
    (hfp : wp.GetApiV2OrganizationsOrganizationIdWorkspaces req.organizationId.ValueString
      = .ok resP)
    (hdp : ∀ msg, Decode wp.unmarshal resP.Body.data ≠ .error (GoError.other msg))
    (hep : ∀ data, Decode wp.unmarshal resP.Body.data = .ok data → data.Projects.toList = [])
    (hso : ∀ st, HasError (wo.convert st) = false)
    (hsp : ∀ st, HasError (wp.convert st) = false) :
    (∃ st, (OrganizationsDataSource.Read wo ro).resp.State = some st ∧
      st.ID = TFString.known (FormatInt wo.Now) ∧
      st.Organizations = GoSlice.nil ∧ FromSlice st.Organizations = TFList.null) ∧
    (∃ st, (ProjectsDataSource.Read wp req rp).resp.State = some st ∧
      st.ID = TFString.known (FormatInt wp.Now) ∧
      st.Projects = GoSlice.nil ∧ FromSlice st.Projects = TFList.null) := by
  constructor
  · cases hd : Decode wo.unmarshal resO.Body.data with
    | ok data =>
      rw [organizations_Read_ok wo ro resO data hfo hd, deferredClose_State,
        StateSet_State _ _ _ (hso _)]
      refine ⟨_, rfl, rfl, ?_, ?_⟩ <;> simp [heo data hd, FromSlice]
    | error e =>
      cases e with
      | EOF =>
        rw [organizations_Read_eof wo ro resO hfo hd, deferredClose_State,
          StateSet_State _ _ _ (hso _)]
        exact ⟨_, rfl, rfl, rfl, rfl⟩
      | other msg => exact absurd hd (hdo msg)
  · cases hd : Decode wp.unmarshal resP.Body.data with
    | ok data =>
      rw [projects_Read_ok wp req rp resP data hfp hd, deferredClose_State,
        StateSet_State _ _ _ (hsp _)]
      refine ⟨_, rfl, rfl, ?_, ?_⟩ <;> simp [hep data hd, FromSlice]
    | error e =>
      cases e with
      | EOF =>
        rw [projects_Read_eof wp req rp resP hfp hd, deferredClose_State,
          StateSet_State _ _ _ (hsp _)]
        exact ⟨_, rfl, rfl, rfl, rfl⟩
      | other msg => exact absurd hd (hdp msg)

/-- Witness of C11 (amended) on responses holding an empty array. -/
theorem C11_empty_collection_witness :
    Decode Examples.emptyArrayWorld.unmarshal "\x7b\"organizations\":[]\x7d"
        = .ok { Organizations := .ofList [] } ∧
      (∃ st, (OrganizationsDataSource.Read Examples.emptyArrayWorld
            (ReadResponse.fresh _)).resp.State = some st ∧
        st.ID = TFString.known (FormatInt Examples.emptyArrayWorld.Now) ∧
        st.Organizations = GoSlice.nil ∧ FromSlice st.Organizations = TFList.null) ∧
      (∃ st, (ProjectsDataSource.Read Examples.emptyArrayProjectsWorld Examples.projRequest
            (ReadResponse.fresh _)).resp.State = some st ∧
        st.ID = TFString.known (FormatInt Examples.emptyArrayProjectsWorld.Now) ∧
        st.Projects = GoSlice.nil ∧ FromSlice st.Projects = TFList.null) :=
  ⟨rfl,
    C11_empty_collection Examples.emptyArrayWorld Examples.emptyArrayProjectsWorld
      Examples.projRequest (ReadResponse.fresh _) (ReadResponse.fresh _)
      { Body := { data := "\x7b\"organizations\":[]\x7d", closeErr := none } }
      { Body := { data := "\x7b\"workspaces\":[]\x7d", closeErr := none } }
      rfl
      (fun _ h => Except.noConfusion
        ((rfl : Decode Examples.emptyArrayWorld.unmarshal "\x7b\"organizations\":[]\x7d"
          = .ok { Organizations := .ofList [] }).symm.trans h))
      (fun _ h => by
        have h2 := (rfl : Decode Examples.emptyArrayWorld.unmarshal
          "\x7b\"organizations\":[]\x7d" = .ok { Organizations := .ofList [] }).symm.trans h
        cases h2
        rfl)
      rfl
      (fun _ h => Except.noConfusion
        ((rfl : Decode Examples.emptyArrayProjectsWorld.unmarshal "\x7b\"workspaces\":[]\x7d"
          = .ok { Projects := .ofList [] }).symm.trans h))
      (fun _ h => by
        have h2 := (rfl : Decode Examples.emptyArrayProjectsWorld.unmarshal
          "\x7b\"workspaces\":[]\x7d" = .ok { Projects := .ofList [] }).symm.trans h
        cases h2
        rfl)
      (fun _ => rfl) (fun _ => rfl)⟩

end Infisical.datasource

namespace Infisical.datasource
open Infisical

/-- C14: a read whose fetch returned a response closes the body exactly once,
whatever decoding, `State.Set` and `Close` itself do; a read whose fetch failed
closes no body. This holds for the organizations and for the projects read. -/
theorem C14_body_closed_once (wo : OrganizationsWorld) (wp : ProjectsWorld) (req : ReadRequest)
    (ro : ReadResponse OrganizationsDataSourceModel)
    (rp : ReadResponse ProjectsDataSourceModel) :
    (∀ res, wo.GetApiV2UsersMeOrganizations = .ok res →
      (OrganizationsDataSource.Read wo ro).closes = 1) ∧
    (∀ err, wo.GetApiV2UsersMeOrganizations = .error err →
      (OrganizationsDataSource.Read wo ro).closes = 0) ∧
    (∀ res, wp.GetApiV2OrganizationsOrganizationIdWorkspaces req.organizationId.ValueString
        = .ok res →
      (ProjectsDataSource.Read wp req rp).closes = 1) ∧
    (∀ err, wp.GetApiV2OrganizationsOrganizationIdWorkspaces req.organizationId.ValueString
        = .error err →
      (ProjectsDataSource.Read wp req rp).closes = 0) := by
  refine ⟨?_, ?_, ?_, ?_⟩
  · intro res hf
    cases hd : Decode wo.unmarshal res.Body.data with
    | ok data => rw [organizations_Read_ok wo ro res data hf hd, deferredClose_closes]
    | error e =>
      cases e with
      | EOF => rw [organizations_Read_eof wo ro res hf hd, deferredClose_closes]
      | other msg =>
        rw [organizations_Read_decode_error wo ro res msg hf hd, deferredClose_closes]
  · intro err hf
    unfold OrganizationsDataSource.Read
    simp only [hf]
  · intro res hf
    cases hd : Decode wp.unmarshal res.Body.data with
    | ok data => rw [projects_Read_ok wp req rp res data hf hd, deferredClose_closes]
    | error e =>
      cases e with
      | EOF => rw [projects_Read_eof wp req rp res hf hd, deferredClose_closes]
      | other msg =>
        rw [projects_Read_decode_error wp req rp res msg hf hd, deferredClose_closes]
  · intro err hf
    unfold ProjectsDataSource.Read
    simp only [hf]

/-- Witness of C14: one close after a successful read, after a decode failure,
after a rejected `State.Set` and after a failing `Close`; none after a failed
fetch. -/
theorem C14_body_closed_once_witness :
    (OrganizationsDataSource.Read Examples.acmeWorld (ReadResponse.fresh _)).closes = 1 ∧
      (OrganizationsDataSource.Read Examples.malformedBodyWorld (ReadResponse.fresh _)).closes
        = 1 ∧
      (OrganizationsDataSource.Read Examples.rejectingWorld (ReadResponse.fresh _)).resp.State
        = none ∧
      (OrganizationsDataSource.Read Examples.rejectingWorld (ReadResponse.fresh _)).closes = 1 ∧
      (OrganizationsDataSource.Read Examples.closeFailureWorld (ReadResponse.fresh _)).closes
        = 1 ∧
      (OrganizationsDataSource.Read Examples.unreachableWorld (ReadResponse.fresh _)).closes
        = 0 ∧
      (ProjectsDataSource.Read Examples.projWorld Examples.projRequest
        (ReadResponse.fresh _)).closes = 1 ∧
      (ProjectsDataSource.Read Examples.projWorld
        { GetAttributeDiags := [], organizationId := .known "org9" }
        (ReadResponse.fresh _)).closes = 0 :=
  ⟨(C14_body_closed_once Examples.acmeWorld Examples.projWorld Examples.projRequest
      (ReadResponse.fresh _) (ReadResponse.fresh _)).1 _ rfl,
    (C14_body_closed_once Examples.malformedBodyWorld Examples.projWorld Examples.projRequest
      (ReadResponse.fresh _) (ReadResponse.fresh _)).1 _ rfl,
    rfl,
    (C14_body_closed_once Examples.rejectingWorld Examples.projWorld Examples.projRequest
      (ReadResponse.fresh _) (ReadResponse.fresh _)).1 _ rfl,
    (C14_body_closed_once Examples.closeFailureWorld Examples.projWorld Examples.projRequest
      (ReadResponse.fresh _) (ReadResponse.fresh _)).1 _ rfl,
    (C14_body_closed_once Examples.unreachableWorld Examples.projWorld Examples.projRequest
      (ReadResponse.fresh _) (ReadResponse.fresh _)).2.1 _ rfl,
    (C14_body_closed_once Examples.acmeWorld Examples.projWorld Examples.projRequest
      (ReadResponse.fresh _) (ReadResponse.fresh _)).2.2.1 _ rfl,
    (C14_body_closed_once Examples.acmeWorld Examples.projWorld
      { GetAttributeDiags := [], organizationId := .known "org9" }
      (ReadResponse.fresh _) (ReadResponse.fresh _)).2.2.2 _ rfl⟩

end Infisical.datasource

namespace Infisical.datasource
open Infisical

/-- The state a read leaves does not depend on what closing the body returns. -/
theorem organizations_Read_State_close (w : OrganizationsWorld)
    (resp : ReadResponse OrganizationsDataSourceModel) (res : HttpResponse)
    (hfetch : w.GetApiV2UsersMeOrganizations = .ok res) :
    (OrganizationsDataSource.Read w resp).resp.State =
      (OrganizationsDataSource.Read
        { w with GetApiV2UsersMeOrganizations :=
                   .ok { Body := { data := res.Body.data, closeErr := none } } }
        resp).resp.State := by
  unfold OrganizationsDataSource.Read
  simp only [hfetch]
  cases hd : Decode w.unmarshal res.Body.data with
  | ok data => simp only [deferredClose_State]
  | error e => cases e <;> simp only [deferredClose_State]

/-- The state the projects read leaves does not depend on what closing the body
returns. -/
theorem projects_Read_State_close (w : ProjectsWorld) (req : ReadRequest)
    (resp : ReadResponse ProjectsDataSourceModel) (res : HttpResponse)
    (hfetch : w.GetApiV2OrganizationsOrganizationIdWorkspaces req.organizationId.ValueString
      = .ok res) :
    (ProjectsDataSource.Read w req resp).resp.State =
      (ProjectsDataSource.Read
        { w with GetApiV2OrganizationsOrganizationIdWorkspaces := fun _ =>
                   .ok { Body := { data := res.Body.data, closeErr := none } } }
        req resp).resp.State := by
  unfold ProjectsDataSource.Read
  simp only [hfetch]
  cases hd : Decode w.unmarshal res.Body.data with
  | ok data => simp only [deferredClose_State]
  | error e => cases e <;> simp only [deferredClose_State]

/-- C15: when fetch, decode and `State.Set` succeed and closing the body fails
with `e`, the state is the one the same read sets when the close succeeds (same
records, same id), and the diagnostics hold an error with the summary
`Unable to close body reader for User` and detail `e`; that summary differs from
the fetch and decode summaries of both reads. -/
theorem C15_close_failure (wo : OrganizationsWorld) (wp : ProjectsWorld) (req : ReadRequest)
    (ro : ReadResponse OrganizationsDataSourceModel) (rp : ReadResponse ProjectsDataSourceModel)
    (resO resP : HttpResponse) (eO eP : String)
    (hfo : wo.GetApiV2UsersMeOrganizations = .ok resO)
    (hdo : ∀ msg, Decode wo.unmarshal resO.Body.data ≠ .error (GoError.other msg))
    (hco : resO.Body.closeErr = some eO)
    (hfp : wp.GetApiV2OrganizationsOrganizationIdWorkspaces req.organizationId.ValueString
      = .ok resP)
    (hdp : ∀ msg, Decode wp.unmarshal resP.Body.data ≠ .error (GoError.other msg))
    (hcp : resP.Body.closeErr = some eP)
    (hso : ∀ st, HasError (wo.convert st) = false)
    (hsp : ∀ st, HasError (wp.convert st) = false) :
    (∃ st, (OrganizationsDataSource.Read wo ro).resp.State = some st ∧
      (OrganizationsDataSource.Read
        { wo with GetApiV2UsersMeOrganizations :=
                    .ok { Body := { data := resO.Body.data, closeErr := none } } }
        ro).resp.State = some st ∧
      st.ID = TFString.known (FormatInt wo.Now) ∧
      (⟨Severity.Error, "Unable to close body reader for User", eO, none⟩ : Diagnostic) ∈
        (OrganizationsDataSource.Read wo ro).resp.Diagnostics) ∧
    (∃ st, (ProjectsDataSource.Read wp req rp).resp.State = some st ∧
      (ProjectsDataSource.Read
        { wp with GetApiV2OrganizationsOrganizationIdWorkspaces := fun _ =>
                    .ok { Body := { data := resP.Body.data, closeErr := none } } }
        req rp).resp.State = some st ∧
      st.ID = TFString.known (FormatInt wp.Now) ∧
      (⟨Severity.Error, "Unable to close body reader for User", eP, none⟩ : Diagnostic) ∈
        (ProjectsDataSource.Read wp req rp).resp.Diagnostics) ∧
    ("Unable to close body reader for User" ≠ "Unable to Read Infisical Organizations for User" ∧
      "Unable to close body reader for User"
        ≠ "Unable to Decode Infisical Organizations for User" ∧
      "Unable to close body reader for User" ≠ "Unable to Read Infisical Projects for User" ∧
      "Unable to close body reader for User" ≠ "Unable to Decode Infisical Projects for User") := by
  refine ⟨?_, ?_, by decide⟩
  · rw [← organizations_Read_State_close wo ro resO hfo]
    cases hd : Decode wo.unmarshal resO.Body.data with
    | ok data =>
      rw [organizations_Read_ok wo ro resO data hfo hd, deferredClose_State,
        StateSet_State _ _ _ (hso _)]
      exact ⟨_, rfl, rfl, rfl, (mem_deferredClose _ _ _).2 (Or.inr ⟨eO, hco, rfl⟩)⟩
    | error e =>
      cases e with
      | EOF =>
        rw [organizations_Read_eof wo ro resO hfo hd, deferredClose_State,
          StateSet_State _ _ _ (hso _)]
        exact ⟨_, rfl, rfl, rfl, (mem_deferredClose _ _ _).2 (Or.inr ⟨eO, hco, rfl⟩)⟩
      | other msg => exact absurd hd (hdo msg)
  · rw [← projects_Read_State_close wp req rp resP hfp]
    cases hd : Decode wp.unmarshal resP.Body.data with
    | ok data =>
      rw [projects_Read_ok wp req rp resP data hfp hd, deferredClose_State,
        StateSet_State _ _ _ (hsp _)]
      exact ⟨_, rfl, rfl, rfl, (mem_deferredClose _ _ _).2 (Or.inr ⟨eP, hcp, rfl⟩)⟩
    | error e =>
      cases e with
      | EOF =>
        rw [projects_Read_eof wp req rp resP hfp hd, deferredClose_State,
          StateSet_State _ _ _ (hsp _)]
        exact ⟨_, rfl, rfl, rfl, (mem_deferredClose _ _ _).2 (Or.inr ⟨eP, hcp, rfl⟩)⟩
      | other msg => exact absurd hd (hdp msg)

end Infisical.datasource

namespace Infisical.datasource
open Infisical

/-- Witness of C15: the read of `acmeBody` with a failing close keeps the state
and reports the close failure. -/
theorem C15_close_failure_witness :
    (OrganizationsDataSource.Read Examples.closeFailureWorld (ReadResponse.fresh _)).resp =
        { State := some { Organizations := .ofList [{ ID := .known "o1", Name := .known "Acme" }],
                          ID := .known (FormatInt 1700000000) },
          Diagnostics :=
            [⟨Severity.Error, "Unable to close body reader for User", "close failed", none⟩] } ∧
      (∃ st, (OrganizationsDataSource.Read Examples.closeFailureWorld
            (ReadResponse.fresh _)).resp.State = some st ∧
        (OrganizationsDataSource.Read
          { Examples.closeFailureWorld with
              GetApiV2UsersMeOrganizations :=
                .ok { Body := { data := Examples.acmeBody, closeErr := none } } }
          (ReadResponse.fresh _)).resp.State = some st ∧
        st.ID = TFString.known (FormatInt Examples.closeFailureWorld.Now) ∧
        (⟨Severity.Error, "Unable to close body reader for User", "close failed", none⟩ :
            Diagnostic) ∈
          (OrganizationsDataSource.Read Examples.closeFailureWorld
            (ReadResponse.fresh _)).resp.Diagnostics) ∧
      (∃ st, (ProjectsDataSource.Read Examples.closeFailureProjectsWorld Examples.projRequest
            (ReadResponse.fresh _)).resp.State = some st ∧
        (ProjectsDataSource.Read
          { Examples.closeFailureProjectsWorld with
              GetApiV2OrganizationsOrganizationIdWorkspaces := fun _ =>
                .ok { Body := { data := Examples.projBody, closeErr := none } } }
          Examples.projRequest (ReadResponse.fresh _)).resp.State = some st ∧
        st.ID = TFString.known (FormatInt Examples.closeFailureProjectsWorld.Now) ∧
        (⟨Severity.Error, "Unable to close body reader for User", "close failed", none⟩ :
            Diagnostic) ∈
          (ProjectsDataSource.Read Examples.closeFailureProjectsWorld Examples.projRequest
            (ReadResponse.fresh _)).resp.Diagnostics) :=
  ⟨rfl,
    (C15_close_failure Examples.closeFailureWorld Examples.closeFailureProjectsWorld
      Examples.projRequest (ReadResponse.fresh _) (ReadResponse.fresh _)
      { Body := { data := Examples.acmeBody, closeErr := some "close failed" } }
      { Body := { data := Examples.projBody, closeErr := some "close failed" } }
      "close failed" "close failed" rfl
      (fun _ h => Except.noConfusion
        ((rfl : Decode Examples.closeFailureWorld.unmarshal Examples.acmeBody
          = .ok Examples.acmeData).symm.trans h))
      rfl rfl
      (fun _ h => Except.noConfusion
        ((rfl : Decode Examples.closeFailureProjectsWorld.unmarshal Examples.projBody
          = .ok Examples.projData).symm.trans h))
      rfl (fun _ => rfl) (fun _ => rfl)).1,
    (C15_close_failure Examples.closeFailureWorld Examples.closeFailureProjectsWorld
      Examples.projRequest (ReadResponse.fresh _) (ReadResponse.fresh _)
      { Body := { data := Examples.acmeBody, closeErr := some "close failed" } }
      { Body := { data := Examples.projBody, closeErr := some "close failed" } }
      "close failed" "close failed" rfl
      (fun _ h => Except.noConfusion
        ((rfl : Decode Examples.closeFailureWorld.unmarshal Examples.acmeBody
          = .ok Examples.acmeData).symm.trans h))
      rfl rfl
      (fun _ h => Except.noConfusion
        ((rfl : Decode Examples.closeFailureProjectsWorld.unmarshal Examples.projBody
          = .ok Examples.projData).symm.trans h))
      rfl (fun _ => rfl) (fun _ => rfl)).2.1⟩

end Infisical.datasource

namespace Infisical.infisical
open Infisical

/-- C16 (code at the failing input): with `api_key` null and only
`INFISICAL_API_KEY` set in the environment, the legacy `Configure` resolves the
empty key and returns the missing-key diagnostic without a client; the variable
it reads is `API_KEY`, with which the same configuration yields a client. -/
theorem C16_documented_variable_ignored :
    provider.Examples.documentedKeyEnvWorld.Getenv "INFISICAL_API_KEY" = "ak.env" ∧
      resolveApiKey provider.Examples.documentedKeyEnvWorld.Getenv
        provider.Examples.nullLegacyRequest.Config = "" ∧
      Configure provider.Examples.documentedKeyEnvWorld provider.Examples.nullLegacyRequest
          (ConfigureResponse.fresh String) =
        .returned
          { Diagnostics :=
              [⟨Severity.Error, missingApiKeySummary, missingApiKeyDetail, some "api_key"⟩],
            DataSourceData := none, ResourceData := none } ∧
      resolveApiKey provider.Examples.bareKeyEnvWorld.Getenv
        provider.Examples.nullLegacyRequest.Config = "ak.env" ∧
      Configure provider.Examples.bareKeyEnvWorld provider.Examples.nullLegacyRequest
          (ConfigureResponse.fresh String) =
        .returned
          { Diagnostics := [], DataSourceData := some "https://infisical.com",
            ResourceData := some "https://infisical.com" } :=
  ⟨rfl, rfl, rfl, rfl, rfl⟩

end Infisical.infisical

namespace Infisical.provider
open Infisical

/-- C18: an explicit value shadows the environment even when it is empty. For
every world and every host, a known empty `api_token` resolves to the empty
token, whatever `INFISICAL_API_TOKEN` holds, and `Configure` returns the
missing-token diagnostic without a client; a known empty `host` resolves to the
empty host, whatever `INFISICAL_HOST` holds; a null `host` never resolves to the
empty host. -/
theorem C18_empty_explicit_value_shadows {π κ : Type} (w : ProviderWorld π κ)
    (host apiToken : TFString) :
    resolveApiToken w.Getenv ⟨host, .known ""⟩ = "" ∧
      Configure w ⟨[], ⟨host, .known ""⟩⟩ (ConfigureResponse.fresh κ) =
        .returned
          { Diagnostics :=
              [⟨Severity.Error, missingApiTokenSummary, missingApiTokenDetail, some "api_token"⟩],
            DataSourceData := none, ResourceData := none } ∧
      resolveHost w.Getenv ⟨.known "", apiToken⟩ = "" ∧
      resolveHost w.Getenv ⟨.null, apiToken⟩ ≠ "" := by
  refine ⟨rfl, ?_, rfl, ?_⟩
  · unfold Configure
    simp [ConfigureResponse.fresh, Append_nil, HasError, TFString.IsUnknown, resolveApiToken,
      TFString.IsNull, TFString.ValueString, AddAttributeError, Append]
  · simp only [resolveHost, TFString.IsNull, Bool.not_true, Bool.false_eq_true, if_false,
      beq_iff_eq]
    by_cases h : w.Getenv "INFISICAL_HOST" = ""
    · rw [if_pos h]
      decide
    · rw [if_neg h]
      exact h

end Infisical.provider

namespace Infisical.datasource
open Infisical

theorem digitChar_isDigit (k : Nat) (h : k < 10) :
    (Nat.digitChar k).isDigit = true ∧ (Nat.digitChar k).toNat - 48 = k := by
  interval_cases k <;> exact ⟨rfl, rfl⟩

theorem parseDigitsAux_toDigitsCore (fuel : Nat) :
    ∀ (n : Nat) (ds : List Char), n < fuel →
      ∃ k, ∀ acc, parseDigitsAux acc (Nat.toDigitsCore 10 fuel n ds)
        = parseDigitsAux (acc * 10 ^ k + n) ds := by
  induction fuel with
  | zero => intro n ds h; omega
  | succ fuel ih =>
    intro n ds h
    have hd := digitChar_isDigit (n % 10) (Nat.mod_lt _ (by decide))
    by_cases h0 : n / 10 = 0
    · refine ⟨1, fun acc => ?_⟩
      simp only [Nat.toDigitsCore, h0, if_true, parseDigitsAux, hd.1, hd.2, pow_one]
      have : n % 10 = n := Nat.mod_eq_of_lt (by omega)
      rw [this]
    · obtain ⟨k, hk⟩ := ih (n / 10) (Nat.digitChar (n % 10) :: ds) (by omega)
      refine ⟨k + 1, fun acc => ?_⟩
      simp only [Nat.toDigitsCore, h0, if_false]
      rw [hk acc]
      simp only [parseDigitsAux, hd.1, hd.2, if_true]
      congr 1
      have := Nat.div_add_mod n 10
      rw [pow_succ]
      nlinarith [Nat.div_add_mod n 10]

theorem toDigitsCore_head (fuel : Nat) :
    ∀ (n : Nat) (c : Char) (ds : List Char), c.isDigit = true →
      ∃ c2 rest, Nat.toDigitsCore 10 fuel n (c :: ds) = c2 :: rest ∧ c2.isDigit = true := by
  induction fuel with
  | zero => intro n c ds hc; exact ⟨c, ds, rfl, hc⟩
  | succ fuel ih =>
    intro n c ds hc
    have hd := digitChar_isDigit (n % 10) (Nat.mod_lt _ (by decide))
    by_cases h0 : n / 10 = 0
    · exact ⟨Nat.digitChar (n % 10), c :: ds,
        by simp only [Nat.toDigitsCore, h0, if_true], hd.1⟩
    · simp only [Nat.toDigitsCore, h0, if_false]
      exact ih _ _ _ hd.1

theorem toDigits_head (n : Nat) :
    ∃ c rest, Nat.toDigits 10 n = c :: rest ∧ c.isDigit = true := by
  have hd := digitChar_isDigit (n % 10) (Nat.mod_lt _ (by decide))
  unfold Nat.toDigits
  by_cases h0 : n / 10 = 0
  · exact ⟨Nat.digitChar (n % 10), [], by simp only [Nat.toDigitsCore, h0, if_true], hd.1⟩
  · simp only [Nat.toDigitsCore, h0, if_false]
    exact toDigitsCore_head _ _ _ _ hd.1

theorem parseDigits_toDigits (n : Nat) : parseDigits (Nat.toDigits 10 n) = some n := by
  obtain ⟨c, rest, hcr, _⟩ := toDigits_head n
  obtain ⟨k, hk⟩ := parseDigitsAux_toDigitsCore (n + 1) n [] (by omega)
  have h := hk 0
  rw [show Nat.toDigitsCore 10 (n + 1) n [] = Nat.toDigits 10 n from rfl, hcr] at h
  rw [hcr]
  simp only [parseDigits]
  rw [h]
  simp [parseDigitsAux]

theorem parseDecimal_FormatInt (t : Int) : parseDecimal (FormatInt t) = some t := by
  unfold FormatInt
  cases t with
  | ofNat m =>
    obtain ⟨c, rest, hcr, hc⟩ := toDigits_head m
    have hp := parseDigits_toDigits m
    have hdata : (toString (Int.ofNat m)).data = Nat.toDigits 10 m := rfl
    unfold parseDecimal
    rw [hdata, hcr]
    rw [hcr] at hp
    have hne : c ≠ '-' := by
      intro h
      rw [h] at hc
      exact absurd hc (by decide)
    simp only [hne, if_false, hp]
    rfl
  | negSucc m =>
    obtain ⟨c, rest, hcr, hc⟩ := toDigits_head (m + 1)
    have hp := parseDigits_toDigits (m + 1)
    have hdata : (toString (Int.negSucc m)).data = '-' :: Nat.toDigits 10 (m + 1) := by
      show ("-" ++ Nat.repr (m + 1)).data = _
      simp only [Nat.repr, String.data_append]
      rfl
    unfold parseDecimal
    rw [hdata]
    simp only [if_true, hp, Option.map_some']
    rfl

theorem parseDigits_FormatInt (t : Int) (h : 0 ≤ t) :
    parseDigits (FormatInt t).data = some t.toNat := by
  cases t with
  | ofNat m => exact parseDigits_toDigits m
  | negSucc m => exact absurd h (by simp)

theorem organizations_Read_ID (w : OrganizationsWorld)
    (resp : ReadResponse OrganizationsDataSourceModel) (res : HttpResponse)
    (hfetch : w.GetApiV2UsersMeOrganizations = .ok res)
    (hdec : ∀ msg, Decode w.unmarshal res.Body.data ≠ .error (GoError.other msg))
    (hset : ∀ st, HasError (w.convert st) = false) :
    ∃ st, (OrganizationsDataSource.Read w resp).resp.State = some st ∧
      st.ID = TFString.known (FormatInt w.Now) := by
  cases hd : Decode w.unmarshal res.Body.data with
  | ok data =>
    rw [organizations_Read_ok w resp res data hfetch hd, deferredClose_State,
      StateSet_State _ _ _ (hset _)]
    exact ⟨_, rfl, rfl⟩
  | error e =>
    cases e with
    | EOF =>
      rw [organizations_Read_eof w resp res hfetch hd, deferredClose_State,
        StateSet_State _ _ _ (hset _)]
      exact ⟨_, rfl, rfl⟩
    | other msg => exact absurd hd (hdec msg)

theorem projects_Read_ID (w : ProjectsWorld) (req : ReadRequest)
    (resp : ReadResponse ProjectsDataSourceModel) (res : HttpResponse)
    (hfetch : w.GetApiV2OrganizationsOrganizationIdWorkspaces req.organizationId.ValueString
      = .ok res)
    (hdec : ∀ msg, Decode w.unmarshal res.Body.data ≠ .error (GoError.other msg))
    (hset : ∀ st, HasError (w.convert st) = false) :
    ∃ st, (ProjectsDataSource.Read w req resp).resp.State = some st ∧
      st.ID = TFString.known (FormatInt w.Now) := by
  cases hd : Decode w.unmarshal res.Body.data with
  | ok data =>
    rw [projects_Read_ok w req resp res data hfetch hd, deferredClose_State,
      StateSet_State _ _ _ (hset _)]
    exact ⟨_, rfl, rfl⟩
  | error e =>
    cases e with
    | EOF =>
      rw [projects_Read_eof w req resp res hfetch hd, deferredClose_State,
        StateSet_State _ _ _ (hset _)]
      exact ⟨_, rfl, rfl⟩
    | other msg => exact absurd hd (hdec msg)

end Infisical.datasource

namespace Infisical.datasource
open Infisical

/-- C12: in every successful organizations or projects read at clock reading
`Now` (fetch and decoding without error, value accepted by the framework), the
id of the state is the decimal string `FormatInt Now`; reading it as a decimal
integer gives back `Now`, and for a clock reading that is not negative it is a
string of decimal digits reading as the non-negative integer `Now`. -/
theorem C12_id_is_decimal_timestamp (wo : OrganizationsWorld) (wp : ProjectsWorld)
    (req : ReadRequest)
    (ro : ReadResponse OrganizationsDataSourceModel) (rp : ReadResponse ProjectsDataSourceModel)
    (resO resP : HttpResponse)
    (hfo : wo.GetApiV2UsersMeOrganizations = .ok resO)
    (hdo : ∀ msg, Decode wo.unmarshal resO.Body.data ≠ .error (GoError.other msg))
    (hfp : wp.GetApiV2OrganizationsOrganizationIdWorkspaces req.organizationId.ValueString
      = .ok resP)
    (hdp : ∀ msg, Decode wp.unmarshal resP.Body.data ≠ .error (GoError.other msg))
    (hso : ∀ st, HasError (wo.convert st) = false)
    (hsp : ∀ st, HasError (wp.convert st) = false) :
    (∃ st, (OrganizationsDataSource.Read wo ro).resp.State = some st ∧
      st.ID = TFString.known (FormatInt wo.Now) ∧
      parseDecimal st.ID.ValueString = some wo.Now ∧
      (0 ≤ wo.Now → parseDigits st.ID.ValueString.data = some wo.Now.toNat)) ∧
    (∃ st, (ProjectsDataSource.Read wp req rp).resp.State = some st ∧
      st.ID = TFString.known (FormatInt wp.Now) ∧
      parseDecimal st.ID.ValueString = some wp.Now ∧
      (0 ≤ wp.Now → parseDigits st.ID.ValueString.data = some wp.Now.toNat)) := by
  obtain ⟨sto, hsto, hido⟩ := organizations_Read_ID wo ro resO hfo hdo hso
  obtain ⟨stp, hstp, hidp⟩ := projects_Read_ID wp req rp resP hfp hdp hsp
  refine ⟨⟨sto, hsto, hido, ?_, ?_⟩, ⟨stp, hstp, hidp, ?_, ?_⟩⟩
  · rw [hido]
    exact parseDecimal_FormatInt _
  · intro h
    rw [hido]
    exact parseDigits_FormatInt _ h
  · rw [hidp]
    exact parseDecimal_FormatInt _
  · intro h
    rw [hidp]
    exact parseDigits_FormatInt _ h

/-- Witness of C12: the body with the organization `o1`/`Acme`, read at
1700000000, gives that organization and the id `1700000000`. -/
theorem C12_id_is_decimal_timestamp_witness :
    FormatInt 1700000000 = "1700000000" ∧
      (OrganizationsDataSource.Read Examples.acmeWorld (ReadResponse.fresh _)).resp.State =
        some { Organizations := .ofList [{ ID := .known "o1", Name := .known "Acme" }],
               ID := .known "1700000000" } ∧
      (∃ st, (OrganizationsDataSource.Read Examples.acmeWorld (ReadResponse.fresh _)).resp.State
          = some st ∧
        st.ID = TFString.known (FormatInt Examples.acmeWorld.Now) ∧
        parseDecimal st.ID.ValueString = some Examples.acmeWorld.Now ∧
        (0 ≤ Examples.acmeWorld.Now →
          parseDigits st.ID.ValueString.data = some Examples.acmeWorld.Now.toNat)) ∧
      (∃ st, (ProjectsDataSource.Read Examples.projWorld Examples.projRequest
          (ReadResponse.fresh _)).resp.State = some st ∧
        st.ID = TFString.known (FormatInt Examples.projWorld.Now) ∧
        parseDecimal st.ID.ValueString = some Examples.projWorld.Now ∧
        (0 ≤ Examples.projWorld.Now →
          parseDigits st.ID.ValueString.data = some Examples.projWorld.Now.toNat)) :=
  ⟨rfl, rfl,
    C12_id_is_decimal_timestamp Examples.acmeWorld Examples.projWorld Examples.projRequest
      (ReadResponse.fresh _) (ReadResponse.fresh _)
      { Body := { data := Examples.acmeBody, closeErr := none } }
      { Body := { data := Examples.projBody, closeErr := none } }
      rfl
      (fun _ h => Except.noConfusion
        ((rfl : Decode Examples.acmeWorld.unmarshal Examples.acmeBody
          = .ok Examples.acmeData).symm.trans h))
      rfl
      (fun _ h => Except.noConfusion
        ((rfl : Decode Examples.projWorld.unmarshal Examples.projBody
          = .ok Examples.projData).symm.trans h))
      (fun _ => rfl) (fun _ => rfl)⟩

/-- C13: take a first successful read (organizations in `wo1`, or projects in
`wp1`) and a second successful read (organizations in `wo2`, or projects in
`wp2`). Each id reads as a decimal integer, and whenever the clock reading of the
first read is at most that of the second, the integer of the second id is greater
than or equal to the integer of the first. -/
theorem C13_ids_non_decreasing (wo1 wo2 : OrganizationsWorld) (wp1 wp2 : ProjectsWorld)
    (req1 req2 : ReadRequest)
    (ro1 ro2 : ReadResponse OrganizationsDataSourceModel)
    (rp1 rp2 : ReadResponse ProjectsDataSourceModel)
    (resO1 resO2 resP1 resP2 : HttpResponse)
    (hfo1 : wo1.GetApiV2UsersMeOrganizations = .ok resO1)
    (hdo1 : ∀ msg, Decode wo1.unmarshal resO1.Body.data ≠ .error (GoError.other msg))
    (hso1 : ∀ st, HasError (wo1.convert st) = false)
    (hfo2 : wo2.GetApiV2UsersMeOrganizations = .ok resO2)
    (hdo2 : ∀ msg, Decode wo2.unmarshal resO2.Body.data ≠ .error (GoError.other msg))
    (hso2 : ∀ st, HasError (wo2.convert st) = false)
    (hfp1 : wp1.GetApiV2OrganizationsOrganizationIdWorkspaces req1.organizationId.ValueString
      = .ok resP1)
    (hdp1 : ∀ msg, Decode wp1.unmarshal resP1.Body.data ≠ .error (GoError.other msg))
    (hsp1 : ∀ st, HasError (wp1.convert st) = false)
    (hfp2 : wp2.GetApiV2OrganizationsOrganizationIdWorkspaces req2.organizationId.ValueString
      = .ok resP2)
    (hdp2 : ∀ msg, Decode wp2.unmarshal resP2.Body.data ≠ .error (GoError.other msg))
    (hsp2 : ∀ st, HasError (wp2.convert st) = false) :
    ∃ a1 a2 b1 b2 : Int,
      (∃ st, (OrganizationsDataSource.Read wo1 ro1).resp.State = some st ∧
        parseDecimal st.ID.ValueString = some a1) ∧
      (∃ st, (OrganizationsDataSource.Read wo2 ro2).resp.State = some st ∧
        parseDecimal st.ID.ValueString = some a2) ∧
      (∃ st, (ProjectsDataSource.Read wp1 req1 rp1).resp.State = some st ∧
        parseDecimal st.ID.ValueString = some b1) ∧
      (∃ st, (ProjectsDataSource.Read wp2 req2 rp2).resp.State = some st ∧
        parseDecimal st.ID.ValueString = some b2) ∧
      (wo1.Now ≤ wo2.Now → a1 ≤ a2) ∧ (wo1.Now ≤ wp2.Now → a1 ≤ b2) ∧
      (wp1.Now ≤ wo2.Now → b1 ≤ a2) ∧ (wp1.Now ≤ wp2.Now → b1 ≤ b2) := by
  obtain ⟨so1, hso1s, hio1⟩ := organizations_Read_ID wo1 ro1 resO1 hfo1 hdo1 hso1
  obtain ⟨so2, hso2s, hio2⟩ := organizations_Read_ID wo2 ro2 resO2 hfo2 hdo2 hso2
  obtain ⟨sp1, hsp1s, hip1⟩ := projects_Read_ID wp1 req1 rp1 resP1 hfp1 hdp1 hsp1
  obtain ⟨sp2, hsp2s, hip2⟩ := projects_Read_ID wp2 req2 rp2 resP2 hfp2 hdp2 hsp2
  refine ⟨wo1.Now, wo2.Now, wp1.Now, wp2.Now, ⟨so1, hso1s, ?_⟩, ⟨so2, hso2s, ?_⟩,
    ⟨sp1, hsp1s, ?_⟩, ⟨sp2, hsp2s, ?_⟩, id, id, id, id⟩
  · rw [hio1]; exact parseDecimal_FormatInt _
  · rw [hio2]; exact parseDecimal_FormatInt _
  · rw [hip1]; exact parseDecimal_FormatInt _
  · rw [hip2]; exact parseDecimal_FormatInt _

end Infisical.datasource

namespace Infisical.datasource
open Infisical

/-- Witness of C13: reads at 1700000000 followed by reads at 1700000005 and
1700000007. -/
theorem C13_ids_non_decreasing_witness :
    Examples.acmeWorld.Now ≤ Examples.laterAcmeWorld.Now ∧
      (OrganizationsDataSource.Read Examples.acmeWorld (ReadResponse.fresh _)).resp.State.map
          (fun st => st.ID) = some (.known "1700000000") ∧
      (OrganizationsDataSource.Read Examples.laterAcmeWorld (ReadResponse.fresh _)).resp.State.map
          (fun st => st.ID) = some (.known "1700000005") ∧
      ∃ a1 a2 b1 b2 : Int,
        (∃ st, (OrganizationsDataSource.Read Examples.acmeWorld (ReadResponse.fresh _)).resp.State
            = some st ∧ parseDecimal st.ID.ValueString = some a1) ∧
        (∃ st, (OrganizationsDataSource.Read Examples.laterAcmeWorld
            (ReadResponse.fresh _)).resp.State = some st ∧
          parseDecimal st.ID.ValueString = some a2) ∧
        (∃ st, (ProjectsDataSource.Read Examples.projWorld Examples.projRequest
            (ReadResponse.fresh _)).resp.State = some st ∧
          parseDecimal st.ID.ValueString = some b1) ∧
        (∃ st, (ProjectsDataSource.Read Examples.laterProjWorld Examples.projRequest
            (ReadResponse.fresh _)).resp.State = some st ∧
          parseDecimal st.ID.ValueString = some b2) ∧
        (Examples.acmeWorld.Now ≤ Examples.laterAcmeWorld.Now → a1 ≤ a2) ∧
        (Examples.acmeWorld.Now ≤ Examples.laterProjWorld.Now → a1 ≤ b2) ∧
        (Examples.projWorld.Now ≤ Examples.laterAcmeWorld.Now → b1 ≤ a2) ∧
        (Examples.projWorld.Now ≤ Examples.laterProjWorld.Now → b1 ≤ b2) :=
  ⟨by decide, rfl, rfl,
    C13_ids_non_decreasing Examples.acmeWorld Examples.laterAcmeWorld Examples.projWorld
      Examples.laterProjWorld Examples.projRequest Examples.projRequest
      (ReadResponse.fresh _) (ReadResponse.fresh _) (ReadResponse.fresh _) (ReadResponse.fresh _)
      { Body := { data := Examples.acmeBody, closeErr := none } }
      { Body := { data := Examples.acmeBody, closeErr := none } }
      { Body := { data := Examples.projBody, closeErr := none } }
      { Body := { data := Examples.projBody, closeErr := none } }
      rfl
      (fun _ h => Except.noConfusion
        ((rfl : Decode Examples.acmeWorld.unmarshal Examples.acmeBody
          = .ok Examples.acmeData).symm.trans h))
      (fun _ => rfl)
      rfl
      (fun _ h => Except.noConfusion
        ((rfl : Decode Examples.laterAcmeWorld.unmarshal Examples.acmeBody
          = .ok Examples.acmeData).symm.trans h))
      (fun _ => rfl)
      rfl
      (fun _ h => Except.noConfusion
        ((rfl : Decode Examples.projWorld.unmarshal Examples.projBody
          = .ok Examples.projData).symm.trans h))
      (fun _ => rfl)
      rfl
      (fun _ h => Except.noConfusion
        ((rfl : Decode Examples.laterProjWorld.unmarshal Examples.projBody
          = .ok Examples.projData).symm.trans h))
      (fun _ => rfl)⟩

end Infisical.datasource

namespace Infisical.datasource
open Infisical

theorem member?_string_or_absent (names : List String) (members : List (String × JSON))
    (h : stringMembers names members = true) (name : String) (hn : name ∈ names) :
    member? name members = none ∨ ∃ s, member? name members = some (JSON.string s) := by
  unfold member?
  cases hf : members.find? (fun m => equalFold m.1 name) with
  | none => exact Or.inl rfl
  | some m =>
    right
    have hm : m ∈ members := List.mem_of_find?_eq_some hf
    have hp : equalFold m.1 name = true := by
      have := List.find?_some hf
      simpa using this
    have hall := (List.all_eq_true.1 h) m hm
    have hany : names.any (fun n => equalFold m.1 n) = true :=
      List.any_eq_true.2 ⟨name, hn, hp⟩
    simp only [hany, Bool.not_true, Bool.false_or] at hall
    cases hv : m.2 with
    | string s => exact ⟨s, by simp [hv]⟩
    | null => rw [hv] at hall; exact absurd hall (by decide)
    | bool b => rw [hv] at hall; exact absurd hall (by simp [JSON.isString])
    | number l => rw [hv] at hall; exact absurd hall (by simp [JSON.isString])
    | array l => rw [hv] at hall; exact absurd hall (by simp [JSON.isString])
    | object l => rw [hv] at hall; exact absurd hall (by simp [JSON.isString])

theorem unmarshalString_string_or_absent (v : Option JSON)
    (h : v = none ∨ ∃ s, v = some (JSON.string s)) :
    unmarshalString v = some (stringOrEmpty v) := by
  rcases h with h | ⟨s, h⟩ <;> subst h <;> rfl

theorem unmarshalList_map {α : Type} (elem : JSON → Option α) (g : JSON → α) (l : List JSON)
    (h : ∀ j ∈ l, elem j = some (g j)) : unmarshalList elem l = some (l.map g) := by
  induction l with
  | nil => rfl
  | cons j rest ih =>
    have hj := h j (List.mem_cons_self _ _)
    have hrest := ih (fun k hk => h k (List.mem_cons_of_mem _ hk))
    simp only [unmarshalList, hj, hrest, List.map_cons]


theorem unmarshalList_getD {α : Type} (elem : JSON → Option α) (d : α) (l : List JSON)
    (h : ∀ j ∈ l, ∃ a, elem j = some a) :
    unmarshalList elem l = some (l.map (fun j => (elem j).getD d)) := by
  apply unmarshalList_map
  intro j hj
  obtain ⟨a, ha⟩ := h j hj
  simp [ha]

theorem unmarshalOrganizationRecord_object (members : List (String × JSON))
    (h : stringMembers ["_id", "name"] members = true) :
    unmarshalOrganizationRecord (.object members) =
      some { ID := stringOrEmpty (member? "_id" members),
             Name := stringOrEmpty (member? "name" members) } := by
  have h1 := unmarshalString_string_or_absent _
    (member?_string_or_absent _ _ h "_id" (by simp))
  have h2 := unmarshalString_string_or_absent _
    (member?_string_or_absent _ _ h "name" (by simp))
  simp only [unmarshalOrganizationRecord, h1, h2]

theorem unmarshalEnvironmentReturn_object (members : List (String × JSON))
    (h : stringMembers ["_id", "name", "slug"] members = true) :
    unmarshalEnvironmentReturn (.object members) =
      some { ID := stringOrEmpty (member? "_id" members),
             Name := stringOrEmpty (member? "name" members),
             Slug := stringOrEmpty (member? "slug" members) } := by
  have h1 := unmarshalString_string_or_absent _
    (member?_string_or_absent _ _ h "_id" (by simp))
  have h2 := unmarshalString_string_or_absent _
    (member?_string_or_absent _ _ h "name" (by simp))
  have h3 := unmarshalString_string_or_absent _
    (member?_string_or_absent _ _ h "slug" (by simp))
  simp only [unmarshalEnvironmentReturn, h1, h2, h3]

theorem unmarshalSlice_environments (v : Option JSON) (h : environmentsOK v = true) :
    ∃ sl, unmarshalSlice unmarshalEnvironmentReturn v = some sl ∧ (v = none → sl = GoSlice.nil) := by
  cases v with
  | none => exact ⟨GoSlice.nil, rfl, fun _ => rfl⟩
  | some j =>
    cases j with
    | array elems =>
      have hall : ∀ e ∈ elems, ∃ a, unmarshalEnvironmentReturn e = some a := by
        intro e he
        have := (List.all_eq_true.1 h) e he
        cases e with
        | object members =>
          simp only [Bool.and_eq_true] at this
          exact ⟨_, unmarshalEnvironmentReturn_object members this.2⟩
        | null => simp at this
        | bool b => simp at this
        | number l => simp at this
        | string s => simp at this
        | array l => simp at this
      have hl := unmarshalList_getD unmarshalEnvironmentReturn
        { ID := "", Name := "", Slug := "" } elems hall
      refine ⟨GoSlice.ofList (elems.map (fun j =>
        (unmarshalEnvironmentReturn j).getD { ID := "", Name := "", Slug := "" })), ?_,
        fun hv => by cases hv⟩
      simp only [unmarshalSlice, hl]
    | null => simp [environmentsOK] at h
    | bool b => simp [environmentsOK] at h
    | number l => simp [environmentsOK] at h
    | string s => simp [environmentsOK] at h
    | object l => simp [environmentsOK] at h

theorem unmarshalWorkspaceRecord_object (members : List (String × JSON))
    (h : stringMembers ["_id", "name", "organization"] members = true)
    (he : environmentsOK (member? "environments" members) = true) :
    ∃ sl, unmarshalWorkspaceRecord (.object members) =
        some { ID := stringOrEmpty (member? "_id" members),
               Name := stringOrEmpty (member? "name" members),
               Organization := stringOrEmpty (member? "organization" members),
               Environments := sl } ∧
      (member? "environments" members = none → sl = GoSlice.nil) := by
  have h1 := unmarshalString_string_or_absent _
    (member?_string_or_absent _ _ h "_id" (by simp))
  have h2 := unmarshalString_string_or_absent _
    (member?_string_or_absent _ _ h "name" (by simp))
  have h3 := unmarshalString_string_or_absent _
    (member?_string_or_absent _ _ h "organization" (by simp))
  obtain ⟨sl, hsl, hnil⟩ := unmarshalSlice_environments _ he
  exact ⟨sl, by simp only [unmarshalWorkspaceRecord, h1, h2, h3, hsl], hnil⟩

theorem Decode_unmarshalVia {α : Type} (parse : String → Except String JSON)
    (typeError : JSON → String) (store : JSON → Option α) (body : String) (j : JSON) (data : α)
    (hb : body.data.all jsonIsSpace = false) (hp : parse body = .ok j)
    (hs : store j = some data) :
    Decode (unmarshalVia parse typeError store) body = .ok data := by
  simp [Decode, hb, unmarshalVia, hp, hs]


theorem unmarshalMyOrganizationsResponse_records (top : List (String × JSON))
    (recs : List (List (String × JSON)))
    (hm : member? "organizations" top = some (JSON.array (recs.map JSON.object)))
    (hr : ∀ ms ∈ recs, stringMembers ["_id", "name"] ms = true) :
    unmarshalMyOrganizationsResponse (.object top) =
      some { Organizations := .ofList (recs.map (fun ms =>
        { ID := stringOrEmpty (member? "_id" ms), Name := stringOrEmpty (member? "name" ms) })) } := by
  have hl := unmarshalList_map unmarshalOrganizationRecord
    (fun j => match j with
      | .object ms =>
        { ID := stringOrEmpty (member? "_id" ms), Name := stringOrEmpty (member? "name" ms) }
      | _ => { ID := "", Name := "" })
    (recs.map JSON.object)
    (by
      intro j hj
      obtain ⟨ms, hms, rfl⟩ := List.mem_map.1 hj
      exact unmarshalOrganizationRecord_object ms (hr ms hms))
  simp only [unmarshalMyOrganizationsResponse, hm, unmarshalSlice, hl, List.map_map]
  rfl

theorem unmarshalWorkspacesResponse_records (top : List (String × JSON))
    (recs : List (List (String × JSON)))
    (hm : member? "workspaces" top = some (JSON.array (recs.map JSON.object)))
    (hr : ∀ ms ∈ recs, stringMembers ["_id", "name", "organization"] ms = true ∧
      environmentsOK (member? "environments" ms) = true) :
    ∃ out : List WorkspaceRecord,
      unmarshalWorkspacesResponse (.object top) = some { Projects := .ofList out } ∧
      out.length = recs.length ∧
      ∀ (i : Nat) (ms : List (String × JSON)), recs[i]? = some ms →
        ∃ r, out[i]? = some r ∧
          r.ID = stringOrEmpty (member? "_id" ms) ∧
          r.Name = stringOrEmpty (member? "name" ms) ∧
          (member? "environments" ms = none → r.Environments = GoSlice.nil) := by
  have hl := unmarshalList_getD unmarshalWorkspaceRecord
    { ID := "", Name := "", Organization := "", Environments := .nil }
    (recs.map JSON.object)
    (by
      intro j hj
      obtain ⟨ms, hms, rfl⟩ := List.mem_map.1 hj
      obtain ⟨sl, hsl, _⟩ := unmarshalWorkspaceRecord_object ms (hr ms hms).1 (hr ms hms).2
      exact ⟨_, hsl⟩)
  refine ⟨(recs.map JSON.object).map (fun j => (unmarshalWorkspaceRecord j).getD
      { ID := "", Name := "", Organization := "", Environments := .nil }), ?_, by simp, ?_⟩
  · simp only [unmarshalWorkspacesResponse, hm, unmarshalSlice, hl]
  intro i ms hi
  have hmem : ms ∈ recs := List.getElem?_mem hi
  obtain ⟨sl, hsl, hnil⟩ := unmarshalWorkspaceRecord_object ms (hr ms hmem).1 (hr ms hmem).2
  refine ⟨{ ID := stringOrEmpty (member? "_id" ms), Name := stringOrEmpty (member? "name" ms),
            Organization := stringOrEmpty (member? "organization" ms), Environments := sl },
    ?_, rfl, rfl, hnil⟩
  simp only [List.getElem?_map, hi, Option.map_some', hsl, Option.getD_some]

/-- C17: decoding does not require every field of a record. Let the body parse
into an object whose `organizations` (`workspaces`) member is an array of record
objects that name no field twice and hold JSON strings under the string fields
they name (and, for a workspace, under `environments` nothing or an array of such
environment objects). Then decoding succeeds, the state has exactly one entry per
record, in order, each string field is the known text of its member, and a field
without member is the known empty string (environments without member: no
environments). -/
theorem C17_omitted_fields (wo : OrganizationsWorld) (wp : ProjectsWorld) (req : ReadRequest)
    (ro : ReadResponse OrganizationsDataSourceModel) (rp : ReadResponse ProjectsDataSourceModel)
    (resO resP : HttpResponse)
    (parse : String → Except String JSON) (typeError : JSON → String)
    (topO topP : List (String × JSON)) (recsO recsP : List (List (String × JSON)))
    (hfo : wo.GetApiV2UsersMeOrganizations = .ok resO)
    (hbo : resO.Body.data.data.all jsonIsSpace = false)
    (hwo : wo.unmarshal = unmarshalVia parse typeError unmarshalMyOrganizationsResponse)
    (hpo : parse resO.Body.data = .ok (JSON.object topO))
    (hmo : namesOnce topO = true ∧
      member? "organizations" topO = some (JSON.array (recsO.map JSON.object)))
    (hro : ∀ ms ∈ recsO, namesOnce ms = true ∧ stringMembers ["_id", "name"] ms = true)
    (hso : ∀ st, HasError (wo.convert st) = false)
    (hfp : wp.GetApiV2OrganizationsOrganizationIdWorkspaces req.organizationId.ValueString
      = .ok resP)
    (hbp : resP.Body.data.data.all jsonIsSpace = false)
    (hwp : wp.unmarshal = unmarshalVia parse typeError unmarshalWorkspacesResponse)
    (hpp : parse resP.Body.data = .ok (JSON.object topP))
    (hmp : namesOnce topP = true ∧
      member? "workspaces" topP = some (JSON.array (recsP.map JSON.object)))
    (hrp : ∀ ms ∈ recsP, namesOnce ms = true ∧
      stringMembers ["_id", "name", "organization"] ms = true ∧
      environmentsOK (member? "environments" ms) = true)
    (hsp : ∀ st, HasError (wp.convert st) = false) :
    (∃ st, (OrganizationsDataSource.Read wo ro).resp.State = some st ∧
      st.Organizations.toList.length = recsO.length ∧
      ∀ (i : Nat) (ms : List (String × JSON)), recsO[i]? = some ms →
        ∃ o, st.Organizations.toList[i]? = some o ∧
          o.ID = TFString.known (stringOrEmpty (member? "_id" ms)) ∧
          o.Name = TFString.known (stringOrEmpty (member? "name" ms)) ∧
          (member? "_id" ms = none → o.ID = TFString.known "") ∧
          (member? "name" ms = none → o.Name = TFString.known "")) ∧
    (∃ st, (ProjectsDataSource.Read wp req rp).resp.State = some st ∧
      st.Projects.toList.length = recsP.length ∧
      ∀ (i : Nat) (ms : List (String × JSON)), recsP[i]? = some ms →
        ∃ p, st.Projects.toList[i]? = some p ∧
          p.ID = TFString.known (stringOrEmpty (member? "_id" ms)) ∧
          p.Name = TFString.known (stringOrEmpty (member? "name" ms)) ∧
          (member? "name" ms = none → p.Name = TFString.known "") ∧
          (member? "environments" ms = none → p.Environments.toList = [])) := by
  constructor
  · have hd := Decode_unmarshalVia parse typeError unmarshalMyOrganizationsResponse
      resO.Body.data _ _ hbo hpo
      (unmarshalMyOrganizationsResponse_records topO recsO hmo.2 (fun ms h => (hro ms h).2))
    rw [← hwo] at hd
    rw [organizations_Read_ok wo ro resO _ hfo hd, deferredClose_State,
      StateSet_State _ _ _ (hso _)]
    refine ⟨_, rfl, ?_, ?_⟩
    · simp only [GoSlice.toList_nil_or_map, GoSlice.toList_ofList, List.length_map]
    · intro i ms hi
      simp only [GoSlice.toList_nil_or_map, GoSlice.toList_ofList, List.getElem?_map, hi,
        Option.map_some']
      refine ⟨_, rfl, rfl, rfl, ?_, ?_⟩
      · intro h; simp only [h, stringOrEmpty]
      · intro h; simp only [h, stringOrEmpty]
  · obtain ⟨out, hout, hlen, hrec⟩ := unmarshalWorkspacesResponse_records topP recsP hmp.2
      (fun ms h => (hrp ms h).2)
    have hd := Decode_unmarshalVia parse typeError unmarshalWorkspacesResponse
      resP.Body.data _ _ hbp hpp hout
    rw [← hwp] at hd
    rw [projects_Read_ok wp req rp resP _ hfp hd, deferredClose_State,
      StateSet_State _ _ _ (hsp _)]
    refine ⟨_, rfl, ?_, ?_⟩
    · simp only [GoSlice.toList_nil_or_map, GoSlice.toList_ofList, List.length_map, hlen]
    · intro i ms hi
      obtain ⟨r, hr, hid, hname, henv⟩ := hrec i ms hi
      simp only [GoSlice.toList_nil_or_map, GoSlice.toList_ofList, List.getElem?_map, hr,
        Option.map_some']
      refine ⟨_, rfl, by rw [hid], by rw [hname], ?_, ?_⟩
      · intro h; simp only [hname, h, stringOrEmpty]
      · intro h; simp only [henv h, GoSlice.toList_nil, List.isEmpty_nil, if_true]

end Infisical.datasource

namespace Infisical.datasource
open Infisical

/-- Witness of C17: records that omit `_id`, both fields, or `name` and
`environments` each give one entry, with the empty string for what is omitted. -/
theorem C17_omitted_fields_witness :
    (OrganizationsDataSource.Read Examples.sparseWorld (ReadResponse.fresh _)).resp.State =
        some { Organizations := .ofList
                 [{ ID := .known "", Name := .known "Acme" },
                  { ID := .known "", Name := .known "" }],
               ID := .known "1700000000" } ∧
      (ProjectsDataSource.Read Examples.sparseProjectsWorld Examples.projRequest
          (ReadResponse.fresh _)).resp.State =
        some { ID := .known "1700000000", OrganizationId := .known "org1",
               Projects := .ofList
                 [{ ID := .known "p1", Name := .known "", Environments := .nil },
                  { ID := .known "", Name := .known "Proj",
                    Environments := .ofList
                      [{ ID := .known "", Name := .known "", Slug := .known "dev" }] }] } ∧
      (∃ st, (OrganizationsDataSource.Read Examples.sparseWorld (ReadResponse.fresh _)).resp.State
          = some st ∧
        st.Organizations.toList.length = Examples.sparseRecords.length ∧
        ∀ (i : Nat) (ms : List (String × JSON)), Examples.sparseRecords[i]? = some ms →
          ∃ o, st.Organizations.toList[i]? = some o ∧
            o.ID = TFString.known (stringOrEmpty (member? "_id" ms)) ∧
            o.Name = TFString.known (stringOrEmpty (member? "name" ms)) ∧
            (member? "_id" ms = none → o.ID = TFString.known "") ∧
            (member? "name" ms = none → o.Name = TFString.known "")) ∧
      (∃ st, (ProjectsDataSource.Read Examples.sparseProjectsWorld Examples.projRequest
          (ReadResponse.fresh _)).resp.State = some st ∧
        st.Projects.toList.length = Examples.sparseProjectsRecords.length ∧
        ∀ (i : Nat) (ms : List (String × JSON)), Examples.sparseProjectsRecords[i]? = some ms →
          ∃ p, st.Projects.toList[i]? = some p ∧
            p.ID = TFString.known (stringOrEmpty (member? "_id" ms)) ∧
            p.Name = TFString.known (stringOrEmpty (member? "name" ms)) ∧
            (member? "name" ms = none → p.Name = TFString.known "") ∧
            (member? "environments" ms = none → p.Environments.toList = [])) :=
  ⟨rfl, rfl,
    C17_omitted_fields Examples.sparseWorld Examples.sparseProjectsWorld Examples.projRequest
      (ReadResponse.fresh _) (ReadResponse.fresh _)
      { Body := { data := Examples.sparseBody, closeErr := none } }
      { Body := { data := Examples.sparseProjectsBody, closeErr := none } }
      Examples.sparseParse Examples.sparseTypeError
      [("organizations", JSON.array (Examples.sparseRecords.map JSON.object))]
      [("workspaces", JSON.array (Examples.sparseProjectsRecords.map JSON.object))]
      Examples.sparseRecords Examples.sparseProjectsRecords
      rfl rfl rfl rfl ⟨rfl, rfl⟩
      (fun ms h => by
        simp only [Examples.sparseRecords, List.mem_cons, List.mem_singleton,
          List.not_mem_nil, or_false] at h
        rcases h with rfl | rfl <;> exact ⟨rfl, rfl⟩)
      (fun _ => rfl)
      rfl rfl rfl rfl ⟨rfl, rfl⟩
      (fun ms h => by
        simp only [Examples.sparseProjectsRecords, List.mem_cons, List.mem_singleton,
          List.not_mem_nil, or_false] at h
        rcases h with rfl | rfl <;> exact ⟨rfl, rfl, rfl⟩)
      (fun _ => rfl)⟩

end Infisical.datasource
